import Mathlib

/-!
# Shallow embedding of the gift_rules repository

The embedding follows the TypeScript sources:

* `src/app/services/applyGift.server.ts` — the cart reconciler
  (`applyGiftLogic` and its helpers).  Remote GraphQL calls are modelled by
  passing in the responses the platform would return (`CartQueryResp`,
  `Responses`) and recording the mutations the code issues as a trace
  (`Mutation`).  The platform's effect of a successful mutation on the cart
  is modelled by `applyMutation`.
* `src/extensions/gift-discount/src/cart_lines_discounts_generate_run.ts` —
  the checkout discount function.
* `src/extensions/gifts/assets/gift-banner.js` — the banner's
  `calculateState`.
* `src/unnamed/part_003` — the HTTP action for `POST .../gift/apply`.
* `src/app/routes/app.gift-rule.tsx` — the settings-form validation schema.

Conventions: JS `undefined`/`null` is `Option.none`; JS string falsiness
("" is falsy) is modelled explicitly (`jsStrOr`); monetary amounts carried
as decimal strings by the platform are modelled by their parsed rational
value (`ℚ`), with absent amounts defaulting to 0 exactly as the code's
`parseFloat(x || '0')` does.  Metafield values, which the code parses
itself with `parseFloat(...) || 0`, keep their `String` form and go through
`jsParseFloat`.
-/

/-- JS `x || dflt` for an optional string: `undefined`, `null` and `""` are
falsy. -/
def jsStrOr (v : Option String) (dflt : String) : String :=
  match v with
  | none => dflt
  | some s => if s = "" then dflt else s

/-- Value of a list of decimal digit characters. -/
def digitsVal (ds : List Char) : Nat :=
  ds.foldl (fun a c => 10 * a + (c.toNat - 48)) 0

/-- JS `parseFloat` restricted to the decimal literals this app stores:
optional sign, integer part, optional fractional part; `none` models `NaN`
(no leading numeric prefix).  `parseFloat` reads the longest numeric prefix,
so trailing garbage is ignored; exponents, `Infinity` and leading whitespace
are outside the modelled domain. -/
def jsParseFloat (s : String) : Option ℚ :=
  let cs := s.toList
  let signAndRest : Bool × List Char :=
    match cs with
    | '-' :: rest => (true, rest)
    | '+' :: rest => (false, rest)
    | _ => (false, cs)
  let neg := signAndRest.1
  let cs1 := signAndRest.2
  let intDs := cs1.takeWhile Char.isDigit
  let afterInt := cs1.drop intDs.length
  let fracDs : List Char :=
    match afterInt with
    | '.' :: rest => rest.takeWhile Char.isDigit
    | _ => []
  if intDs.isEmpty && fracDs.isEmpty then none
  else
    let v : ℚ := (digitsVal intDs : ℚ) + (digitsVal fracDs : ℚ) / ((10 : ℚ) ^ fracDs.length)
    some (if neg then -v else v)

/-- JS `parseFloat(s) || 0`: `NaN` (and `0`/`-0`, already zero) become 0. -/
def jsNumOr0 (v : Option ℚ) : ℚ :=
  match v with
  | none => 0
  | some q => q

/-! ## Gift rule (applyGift.server.ts lines 67–111) -/

/-- `GiftRule` (applyGift.server.ts lines 67–71). -/
structure GiftRule where
  giftVariantId : String
  minCartSubtotal : ℚ
  enableRule : Bool
  deriving DecidableEq, Repr

/-- The `currentAppInstallation` payload of the metafield query: each field
is the metafield's `value` (absent metafield or absent value collapse to
`none`, exactly as optional chaining does). -/
structure AppInstallationMetafields where
  gift_variant_id : Option String
  min_cart_subtotal : Option String
  enable_rule : Option String
  deriving DecidableEq, Repr

/-- `getGiftRules` (applyGift.server.ts lines 76–111) after the transport
layer: `none` stands for every early-return path (HTTP failure, missing
`currentAppInstallation`, thrown error), all of which return `null`. -/
def getGiftRules (appInstallation : Option AppInstallationMetafields) : Option GiftRule :=
  match appInstallation with
  | none => none
  | some inst =>
    let giftVariantId := jsStrOr inst.gift_variant_id ""
    let minCartSubtotalStr := jsStrOr inst.min_cart_subtotal "0"
    let enableRule := inst.enable_rule == some "true"
    if giftVariantId = "" then none
    else some ⟨giftVariantId, jsNumOr0 (jsParseFloat minCartSubtotalStr), enableRule⟩

/-! ## Cart data (applyGift.server.ts lines 14–45) -/

/-- One entry of `CartLineNode.attributes`. -/
structure CartAttr where
  key : Option String
  value : Option String
  deriving DecidableEq, Repr

/-- `CartLineNode.merchandise`. -/
structure Merchandise where
  id : Option String
  deriving DecidableEq, Repr

/-- `cost.totalAmount`; the decimal string `amount` is modelled by its
parsed rational value (`currencyCode` is never read by the code). -/
structure TotalAmount where
  amount : Option ℚ
  deriving DecidableEq, Repr

/-- `CartLineNode.cost`. -/
structure CartCost where
  totalAmount : Option TotalAmount
  deriving DecidableEq, Repr

/-- `CartLineNode` (applyGift.server.ts lines 14–30). -/
structure CartLineNode where
  id : Option String
  quantity : Option Nat
  cost : Option CartCost
  merchandise : Option Merchandise
  attributes : Option (List CartAttr)
  deriving DecidableEq, Repr

/-- One element of `lines.edges`. -/
structure CartEdge where
  node : Option CartLineNode
  deriving DecidableEq, Repr

/-- `CartData.lines`. -/
structure CartLines where
  edges : Option (List CartEdge)
  deriving DecidableEq, Repr

/-- `CartData` (applyGift.server.ts lines 32–45); the cart-level `cost`
field is never read by the reconciler and is omitted. -/
structure CartData where
  id : Option String
  lines : Option CartLines
  deriving DecidableEq, Repr

/-- `cartLines?.edges || []`, the standard access pattern of the helpers. -/
def edgesOf (cartLines : Option CartLines) : List CartEdge :=
  match cartLines with
  | none => []
  | some ls => ls.edges.getD []

/-- `isGiftItem` (applyGift.server.ts lines 120–126): the line has an
attribute `_is_gift` with value `"true"`. -/
def isGiftItem (node : Option CartLineNode) : Bool :=
  match node with
  | none => false
  | some n =>
    (n.attributes.getD []).any fun attr =>
      attr.key == some "_is_gift" && attr.value == some "true"

/-- `e.node?.id`, the id a removal or update addresses a line by. -/
def edgeId (e : CartEdge) : Option String :=
  e.node.bind CartLineNode.id

/-- The `!!id` truthiness filter of `findGiftLineIds`: keeps a present,
non-empty id. -/
def nonEmptyIdOpt (i : Option String) : Option String :=
  match i with
  | some s => if s = "" then none else some s
  | none => none

/-- A line's `parseFloat(node.cost?.totalAmount?.amount || '0')` (an absent
amount is the literal `'0'`). -/
def lineCost (node : CartLineNode) : ℚ :=
  ((node.cost.bind CartCost.totalAmount).bind TotalAmount.amount).getD 0

/-- `calculateSubtotalWithoutGifts` (applyGift.server.ts lines 131–149):
sum of `lineCost` over non-gift lines, skipping absent nodes. -/
def calculateSubtotalWithoutGifts (cartLines : Option CartLines) : ℚ :=
  (edgesOf cartLines).foldl
    (fun subtotal edge =>
      match edge.node with
      | none => subtotal
      | some node => if isGiftItem (some node) then subtotal else subtotal + lineCost node)
    0

/-- `findGiftLineIds` (applyGift.server.ts lines 163–169): ids of gift
lines (`edge.node?.id`), dropping absent ids and `""` (`!!id` filter). -/
def findGiftLineIds (cartLines : Option CartLines) : List String :=
  (((edgesOf cartLines).filter fun edge => isGiftItem edge.node).map edgeId).filterMap
    nonEmptyIdOpt

/-- The gift lines' edges of an edge list. -/
def giftEdges (edges : List CartEdge) : List CartEdge :=
  edges.filter fun e => isGiftItem e.node

/-- One edge's contribution to the gift-free subtotal: 0 for an absent
node or a gift line, else its `lineCost`. -/
def lineContribution (e : CartEdge) : ℚ :=
  match e.node with
  | none => 0
  | some n => if isGiftItem (some n) then 0 else lineCost n

/-! ## Banner state (gift-banner.js lines 139–147) -/

/-- The state record `calculateState` returns. -/
structure BannerState where
  isEligible : Bool
  remainingCents : ℤ
  deriving DecidableEq, Repr

/-- `calculateState` (gift-banner.js lines 139–147); `minSubtotalCents` is
the instance field read from the element's attributes, `cartTotalCents` the
argument. -/
def calculateState (minSubtotalCents cartTotalCents : ℤ) : BannerState :=
  ⟨decide (cartTotalCents ≥ minSubtotalCents), max 0 (minSubtotalCents - cartTotalCents)⟩

/-! ## Discount function (cart_lines_discounts_generate_run.ts) -/

/-- `DiscountClass` of the generated API (only membership of `Product` is
ever tested). -/
inductive DiscountClass where
  | Product
  | Order
  | Shipping
  deriving DecidableEq, Repr

/-- `ProductDiscountSelectionStrategy` (only `First` is used). -/
inductive ProductDiscountSelectionStrategy where
  | First
  | All
  deriving DecidableEq, Repr

/-- A cart line as the discount function sees it: its id and the resolved
`_is_gift` attribute lookup (`line.isGift?.value`; an absent attribute and
an absent value both collapse to `none`). -/
structure FnCartLine where
  id : String
  isGift : Option String
  deriving DecidableEq, Repr

/-- `input.cart`. -/
structure FnCart where
  lines : List FnCartLine
  deriving DecidableEq, Repr

/-- `input.discount`. -/
structure FnDiscount where
  discountClasses : List DiscountClass
  deriving DecidableEq, Repr

/-- `CartInput`. -/
structure CartInput where
  cart : FnCart
  discount : FnDiscount
  deriving DecidableEq, Repr

/-- `value.percentage` of a candidate. -/
structure Percentage where
  value : ℚ
  deriving DecidableEq, Repr

/-- `value` of a candidate. -/
structure CandidateValue where
  percentage : Percentage
  deriving DecidableEq, Repr

/-- One element of a candidate's `targets` (`{cartLine: {id}}` flattened to
the line id). -/
structure CandidateTarget where
  cartLineId : String
  deriving DecidableEq, Repr

/-- One discount candidate. -/
structure Candidate where
  message : String
  targets : List CandidateTarget
  value : CandidateValue
  deriving DecidableEq, Repr

/-- `productDiscountsAdd`. -/
structure ProductDiscountsAdd where
  candidates : List Candidate
  selectionStrategy : ProductDiscountSelectionStrategy
  deriving DecidableEq, Repr

/-- One operation of the result. -/
structure DiscountOperation where
  productDiscountsAdd : ProductDiscountsAdd
  deriving DecidableEq, Repr

/-- `CartLinesDiscountsGenerateRunResult`. -/
structure GenerateRunResult where
  operations : List DiscountOperation
  deriving DecidableEq, Repr

/-- The gift-flagged lines (`line.isGift?.value === 'true'`),
cart_lines_discounts_generate_run.ts lines 29–32. -/
def fnGiftLines (input : CartInput) : List FnCartLine :=
  input.cart.lines.filter fun line => line.isGift == some "true"

/-- The candidate built for one gift line
(cart_lines_discounts_generate_run.ts lines 45–59). -/
def mkGiftCandidate (line : FnCartLine) : Candidate :=
  ⟨"Free gift item", [⟨line.id⟩], ⟨⟨100⟩⟩⟩

/-- `cartLinesDiscountsGenerateRun`
(cart_lines_discounts_generate_run.ts lines 11–68). -/
def cartLinesDiscountsGenerateRun (input : CartInput) : GenerateRunResult :=
  if input.cart.lines.length = 0 then ⟨[]⟩
  else
    let hasProductDiscountClass := input.discount.discountClasses.contains DiscountClass.Product
    if !hasProductDiscountClass then ⟨[]⟩
    else
      let giftLines := fnGiftLines input
      if giftLines.length = 0 then ⟨[]⟩
      else
        ⟨[⟨⟨giftLines.map mkGiftCandidate, ProductDiscountSelectionStrategy.First⟩⟩]⟩

/-! ## GraphQL responses and error handling (applyGift.server.ts lines 47–59, 174–200) -/

/-- One element of a response's `errors` array; only `message` is read. -/
structure GQLError where
  message : Option String
  deriving DecidableEq, Repr

/-- One element of a mutation result's `userErrors`; `field` is never
read. -/
structure UserError where
  message : Option String
  deriving DecidableEq, Repr

/-- One mutation result inside `response.data`, keyed by mutation name;
only `userErrors` is read. -/
structure MutationPayload where
  userErrors : Option (List UserError)
  deriving DecidableEq, Repr

/-- `GraphQLMutationResponse`: top-level `errors` plus `data`, whose keys
(`Object.keys` order = insertion order) each hold a mutation payload. -/
structure GQLResp where
  errors : Option (List GQLError)
  data : Option (List (String × MutationPayload))
  deriving DecidableEq, Repr

/-- The `userErrors` scan of `handleGraphQLErrors` (applyGift.server.ts
lines 186–197): the first data key with a non-empty `userErrors` list
yields its first message (`|| fallback` replaces an absent or empty one). -/
def userErrorsCheck (data : List (String × MutationPayload)) (operation : String) :
    Except String Unit :=
  match data.find? (fun kv => 0 < (kv.2.userErrors.getD []).length) with
  | some kv =>
    Except.error
      (jsStrOr ((kv.2.userErrors.getD []).head?.bind UserError.message)
        ("Failed to " ++ operation))
  | none => Except.ok ()

/-- `handleGraphQLErrors` (applyGift.server.ts lines 174–200).  A JS empty
array is truthy, so `response.errors && response.errors.length > 0` is a
pure length test when `errors` is present; the first GraphQL error wins
(`|| fallback` replaces an absent or empty message), else the `userErrors`
scan runs over the data keys. -/
def handleGraphQLErrors (response : GQLResp) (operation : String) :
    Except String Unit :=
  match response.errors with
  | some es =>
    if 0 < es.length then
      Except.error (jsStrOr (es.head?.bind GQLError.message) ("Failed to " ++ operation))
    else userErrorsCheck (response.data.getD []) operation
  | none => userErrorsCheck (response.data.getD []) operation

/-- Boolean success test for a response: no GraphQL error, no data key with
a non-empty `userErrors` list. -/
def gqlOkB (response : GQLResp) : Bool :=
  (response.errors.getD []).length = 0 &&
    (response.data.getD []).all fun kv => (kv.2.userErrors.getD []).length = 0

/-- The message the platform put first in a failing response: the first
GraphQL error's `message`, else the first non-empty `userErrors` entry's
first message. -/
def firstPlatformMessage (response : GQLResp) : Option String :=
  match response.errors with
  | some (e :: _) => e.message
  | _ =>
    match (response.data.getD []).find?
        (fun kv => 0 < (kv.2.userErrors.getD []).length) with
    | some kv => (kv.2.userErrors.getD []).head?.bind UserError.message
    | none => none

/-- The cart-query response (`GraphQLResponse<{cart?: CartData}>`):
`data?.cart` collapses an absent `data` and an absent `cart` to `none`. -/
structure CartQueryResp where
  errors : Option (List GQLError)
  cart : Option CartData
  deriving DecidableEq, Repr

/-- `getCartData` (applyGift.server.ts lines 205–234) after transport. -/
def getCartData (resp : CartQueryResp) : Except String CartData :=
  let cartOf : Except String CartData :=
    match resp.cart with
    | none => Except.error "Cart not found"
    | some c => Except.ok c
  match resp.errors with
  | some es =>
    if 0 < es.length then
      Except.error (jsStrOr (es.head?.bind GQLError.message) "Failed to fetch cart")
    else cartOf
  | none => cartOf

/-! ## Mutations and their platform semantics

The reconciler issues at most one `cartLinesRemove`, one quantity update
and one `cartLinesAdd` per invocation; the platform's response to each is
an input (`Responses`), and the issued calls are recorded in order as a
trace. -/

/-- The `CartLineInput` payload `addGiftItem` sends
(applyGift.server.ts lines 314–325). -/
structure AddGiftInput where
  quantity : Nat
  merchandiseId : String
  attributes : List (String × String)
  deriving DecidableEq, Repr

/-- One issued Storefront mutation with its payload. -/
inductive CartMutation where
  | remove (lineIds : List String)
  | updateQty (lineId : String) (quantity : Nat)
  | add (line : AddGiftInput)
  deriving DecidableEq, Repr

/-- The platform's response to each kind of mutation (each is called at
most once per invocation). -/
structure Responses where
  removeResp : GQLResp
  updateResp : GQLResp
  addResp : GQLResp
  deriving DecidableEq, Repr

/-- The response consulted for a given issued mutation. -/
def respFor (rs : Responses) : CartMutation → GQLResp
  | CartMutation.remove _ => rs.removeResp
  | CartMutation.updateQty _ _ => rs.updateResp
  | CartMutation.add _ => rs.addResp

/-- The `operation` string `handleGraphQLErrors` is called with for each
mutation (applyGift.server.ts lines 259, 292, 331). -/
def opName : CartMutation → String
  | CartMutation.remove _ => "removing gift"
  | CartMutation.updateQty _ _ => "updating quantity"
  | CartMutation.add _ => "adding gift"

/-- `removeGiftItems` (applyGift.server.ts lines 239–266): no call at all
for an empty id list, else one `cartLinesRemove` checked through
`handleGraphQLErrors`. -/
def removeGiftItemsM (rs : Responses) (giftLineIds : List String) :
    Except String Unit × List CartMutation :=
  if giftLineIds.length = 0 then (Except.ok (), [])
  else (handleGraphQLErrors rs.removeResp "removing gift", [CartMutation.remove giftLineIds])

/-- `updateGiftQuantity` (applyGift.server.ts lines 271–299): one update
to quantity 1. -/
def updateGiftQuantityM (rs : Responses) (giftLineId : String) :
    Except String Unit × List CartMutation :=
  (handleGraphQLErrors rs.updateResp "updating quantity",
    [CartMutation.updateQty giftLineId 1])

/-- `addGiftItem` (applyGift.server.ts lines 304–338): one `cartLinesAdd`
of the gift variant with quantity 1 and the `_is_gift=true` attribute. -/
def addGiftItemM (rs : Responses) (giftVariantId : String) :
    Except String Unit × List CartMutation :=
  (handleGraphQLErrors rs.addResp "adding gift",
    [CartMutation.add ⟨1, giftVariantId, [("_is_gift", "true")]⟩])

/-! ## The reconciler (applyGift.server.ts lines 343–495) -/

/-- The return value `ApplyGiftResult` (applyGift.server.ts lines 61–65);
`removed` is `none` when the field is not set. -/
structure ApplyGiftResult where
  applied : Bool
  removed : Option Bool
  reason : String
  deriving DecidableEq, Repr

/-- The ineligible-path reason with removal (applyGift.server.ts line 412). -/
def ineligibleRemovedReason (subtotalAmount minSubtotal : ℚ) : String :=
  "Cart subtotal (" ++ toString subtotalAmount ++ ") is less than minimum required (" ++
    toString minSubtotal ++ "). Gift items have been removed."

/-- The ineligible-path reason without removal (applyGift.server.ts line 418). -/
def ineligibleReason (subtotalAmount minSubtotal : ℚ) : String :=
  "Cart subtotal (" ++ toString subtotalAmount ++ ") is less than minimum required (" ++
    toString minSubtotal ++ ")"

/-- The ineligible branch (applyGift.server.ts lines 394–420). -/
def ineligibleFlow (rs : Responses) (subtotalAmount minSubtotal : ℚ)
    (lines : Option CartLines) : ApplyGiftResult × List CartMutation :=
  let giftLineIds := findGiftLineIds lines
  if 0 < giftLineIds.length then
    match removeGiftItemsM rs giftLineIds with
    | (Except.error r, tr) => (⟨false, none, r⟩, tr)
    | (Except.ok _, tr) =>
      (⟨false, some true, ineligibleRemovedReason subtotalAmount minSubtotal⟩, tr)
  else (⟨false, none, ineligibleReason subtotalAmount minSubtotal⟩, [])

/-- The `find` predicate locating the correct gift line
(applyGift.server.ts lines 429–434): a present node that is a gift and
whose `merchandise?.id` equals the rule's variant id. -/
def correctGiftEdgeB (giftVariantId : String) (edge : CartEdge) : Bool :=
  match edge.node with
  | none => false
  | some node =>
    isGiftItem (some node) && (node.merchandise.bind Merchandise.id == some giftVariantId)

/-- `cartData.lines?.edges?.find(...)?.node` for the correct gift line. -/
def findCorrectGiftLine (giftVariantId : String) (lines : Option CartLines) :
    Option CartLineNode :=
  ((edgesOf lines).find? (correctGiftEdgeB giftVariantId)).bind CartEdge.node

/-- `if (giftLine && giftLine.id)` (applyGift.server.ts line 454):
the correct gift line's id when the line exists and its id is truthy. -/
def correctGiftId (giftLine : Option CartLineNode) : Option String :=
  match giftLine with
  | none => none
  | some g =>
    match g.id with
    | none => none
    | some gid => if gid = "" then none else some gid

/-- The tail of the eligible branch after extraneous-gift removal
(applyGift.server.ts lines 453–494): quantity fix-up of the correct gift
line, or `cartLinesAdd` when there is none. -/
def afterRemoval (rs : Responses) (giftRules : GiftRule)
    (giftLine : Option CartLineNode) : ApplyGiftResult × List CartMutation :=
  match correctGiftId giftLine with
  | some gid =>
    let giftQuantity := (giftLine.bind CartLineNode.quantity).getD 0
    if 1 < giftQuantity then
      match updateGiftQuantityM rs gid with
      | (Except.error r, tr) => (⟨false, none, r⟩, tr)
      | (Except.ok _, tr) => (⟨true, none, "Gift quantity updated to 1"⟩, tr)
    else (⟨false, none, "Gift already added to cart with correct quantity"⟩, [])
  | none =>
    match addGiftItemM rs giftRules.giftVariantId with
    | (Except.error r, tr) => (⟨false, none, r⟩, tr)
    | (Except.ok _, tr) => (⟨true, none, "Gift applied successfully"⟩, tr)

/-- `giftItemsToRemove` (applyGift.server.ts line 440): every gift line id
other than the correct line's (`id !== giftLine?.id` keeps exactly the ids
differing from the correct line's id; with no correct line every gift id
is kept). -/
def giftItemsToRemoveOf (giftRules : GiftRule) (lines : Option CartLines) : List String :=
  (findGiftLineIds lines).filter fun i =>
    !((findCorrectGiftLine giftRules.giftVariantId lines).bind CartLineNode.id == some i)

/-- The removal calls the eligible branch issues (one `cartLinesRemove`
when `giftItemsToRemove` is non-empty and the response is consulted, else
none). -/
def removeTrace (giftRules : GiftRule) (lines : Option CartLines) : List CartMutation :=
  if 0 < (giftItemsToRemoveOf giftRules lines).length then
    [CartMutation.remove (giftItemsToRemoveOf giftRules lines)]
  else []

/-- The eligible branch (applyGift.server.ts lines 422–494): remove every
gift line other than the correct one, then fix up or add. -/
def eligibleFlow (rs : Responses) (giftRules : GiftRule)
    (lines : Option CartLines) : ApplyGiftResult × List CartMutation :=
  let giftLine := findCorrectGiftLine giftRules.giftVariantId lines
  let giftItemsToRemove := giftItemsToRemoveOf giftRules lines
  let step1 :=
    if 0 < giftItemsToRemove.length then removeGiftItemsM rs giftItemsToRemove
    else (Except.ok (), [])
  match step1 with
  | (Except.error r, tr) => (⟨false, none, r⟩, tr)
  | (Except.ok _, tr1) =>
    let step2 := afterRemoval rs giftRules giftLine
    (step2.1, tr1 ++ step2.2)

/-- `applyGiftLogic` (applyGift.server.ts lines 343–495), with the remote
world passed in: `giftRules` is `getGiftRules`' result, `cartResp` the
cart-query response, `rs` the responses the platform would give the three
mutations.  Returns the result together with the issued-mutation trace.
The `gid://` prefixing of the cart id (line 373) only shapes the remote
calls and is not modelled. -/
def applyGiftLogic (giftRules : Option GiftRule) (cartResp : CartQueryResp)
    (rs : Responses) : ApplyGiftResult × List CartMutation :=
  match giftRules with
  | none => (⟨false, none, "Gift rules not configured"⟩, [])
  | some rule =>
    if !rule.enableRule then (⟨false, none, "Gift rule is disabled"⟩, [])
    else
      match getCartData cartResp with
      | Except.error r => (⟨false, none, r⟩, [])
      | Except.ok cartData =>
        let subtotalAmount := calculateSubtotalWithoutGifts cartData.lines
        let minSubtotal := rule.minCartSubtotal
        if subtotalAmount < minSubtotal then
          ineligibleFlow rs subtotalAmount minSubtotal cartData.lines
        else eligibleFlow rs rule cartData.lines

/-! ## Platform semantics of a successful mutation -/

/-- Whether a `cartLinesRemove` of the listed ids keeps this edge: a line
is dropped exactly when its id is listed. -/
def keptByRemoval (ids : List String) (e : CartEdge) : Bool :=
  match edgeId e with
  | some i => !ids.contains i
  | none => true

/-- A quantity update applied to one edge: rewrites the addressed line's
quantity, leaves every other field and every other line unchanged. -/
def updateEdgeQty (lineId : String) (qty : Nat) (e : CartEdge) : CartEdge :=
  if edgeId e == some lineId then
    ⟨e.node.map fun n => ⟨n.id, some qty, n.cost, n.merchandise, n.attributes⟩⟩
  else e

/-- The line the platform appends for the sent `CartLineInput`, under a
fresh id. -/
def newGiftEdge (freshId : String) (inp : AddGiftInput) : CartEdge :=
  ⟨some ⟨some freshId, some inp.quantity, none, some ⟨some inp.merchandiseId⟩,
    some (inp.attributes.map fun kv => ⟨some kv.1, some kv.2⟩)⟩⟩

/-- Effect of one successful mutation on the cart's line list:
`cartLinesRemove` drops the lines whose id is listed, a quantity update
rewrites the addressed line's quantity, `cartLinesAdd` appends a fresh
line (id `freshId`) built from the sent `CartLineInput`. -/
def applyMutation (freshId : String) (lines : Option CartLines) :
    CartMutation → Option CartLines
  | CartMutation.remove ids => some ⟨some ((edgesOf lines).filter (keptByRemoval ids))⟩
  | CartMutation.updateQty lineId qty =>
    some ⟨some ((edgesOf lines).map (updateEdgeQty lineId qty))⟩
  | CartMutation.add inp => some ⟨some (edgesOf lines ++ [newGiftEdge freshId inp])⟩

/-- Effect of a whole successful trace. -/
def applyMutations (freshId : String) (lines : Option CartLines)
    (tr : List CartMutation) : Option CartLines :=
  tr.foldl (applyMutation freshId) lines

/-- The gift lines of a cart (present nodes carrying `_is_gift=true`). -/
def giftNodes (lines : Option CartLines) : List CartLineNode :=
  ((edgesOf lines).filterMap CartEdge.node).filter fun n => isGiftItem (some n)

/-! ## Cart well-formedness

The platform guarantees every cart line a unique non-empty id and a
positive quantity; the TypeScript response types leave all fields optional,
so these facts enter the theorems as explicit hypotheses. -/

/-- One edge carries a present node with a non-empty id. -/
def wfEdgeB (e : CartEdge) : Bool :=
  match e.node with
  | none => false
  | some n =>
    match n.id with
    | none => false
    | some i => !(i = "")

/-- One edge's quantity, when the node is present, is a present number
`≥ 1`. -/
def wfQtyB (e : CartEdge) : Bool :=
  match e.node with
  | none => true
  | some n =>
    match n.quantity with
    | none => false
    | some q => 1 ≤ q

/-- The ids of all lines (present ones). -/
def lineIdsOf (lines : Option CartLines) : List String :=
  (edgesOf lines).filterMap edgeId

/-- Platform well-formedness of a cart's line ids: every edge has a present
node with a non-empty id, and the ids are pairwise distinct. -/
def WfIds (lines : Option CartLines) : Prop :=
  (∀ e ∈ edgesOf lines, wfEdgeB e = true) ∧ (lineIdsOf lines).Nodup

/-- Platform well-formedness of quantities: every present node carries a
quantity `≥ 1`. -/
def WfQty (lines : Option CartLines) : Prop :=
  ∀ e ∈ edgesOf lines, wfQtyB e = true

instance (lines : Option CartLines) : Decidable (WfIds lines) := by
  unfold WfIds; infer_instance

instance (lines : Option CartLines) : Decidable (WfQty lines) := by
  unfold WfQty; infer_instance

/-! ## The HTTP action (src/unnamed/part_003 lines 25–109) -/

/-- The action's inputs after transport: an optional exception (anything
the `try` body throws, carrying `error.message` when it is an `Error`), the
`shop` query parameter, the request body's `cartId` field (`none` also
stands for a non-string value, which zod rejects alike), the availability
of the two APIs, and the reconciler's inputs. -/
def actionModel (exn : Option (Option String)) (shop : Option String)
    (cartIdField : Option String) (storefrontOk adminOk : Bool)
    (giftRules : Option GiftRule) (cartResp : CartQueryResp) (rs : Responses) :
    Nat × ApplyGiftResult :=
  match exn with
  | some m => (500, ⟨false, none, m.getD "Internal server error"⟩)
  | none =>
    match shop with
    | none => (400, ⟨false, none, "Shop domain is required"⟩)
    | some shopDomain =>
      if shopDomain = "" then (400, ⟨false, none, "Shop domain is required"⟩)
      else
        -- zod: a missing key fails with its default "Required" message, an
        -- empty string with the configured min-length message.
        match cartIdField with
        | none => (400, ⟨false, none, "Required"⟩)
        | some cartId =>
          if cartId = "" then (400, ⟨false, none, "Cart ID is required"⟩)
          else if !storefrontOk then (503, ⟨false, none, "Storefront API not available"⟩)
          else if !adminOk then (503, ⟨false, none, "Admin API not available"⟩)
          else
            let result := (applyGiftLogic giftRules cartResp rs).1
            ((if result.applied || result.removed.getD false then 200 else 400), result)

/-! ## Concrete fixtures used by witnesses -/

/-- A fully successful GraphQL response. -/
def okResp : GQLResp := ⟨none, none⟩

/-- All three mutations succeed. -/
def rsOK : Responses := ⟨okResp, okResp, okResp⟩

/-- A failing `cartLinesAdd` response: one user error with message
`"boom"`. -/
def badAddResp : GQLResp := ⟨none, some [("cartLinesAdd", ⟨some [⟨some "boom"⟩]⟩)]⟩

/-- Only the add mutation fails. -/
def rsBadAdd : Responses := ⟨okResp, okResp, badAddResp⟩

/-- A configured, enabled rule: variant `"v1"`, threshold 20. -/
def ruleV1 : GiftRule := ⟨"v1", 20, true⟩

/-- The same rule with threshold 100 (ineligible for the fixture carts). -/
def ruleV1High : GiftRule := ⟨"v1", 100, true⟩

/-- The `_is_gift=true` attribute list. -/
def giftAttrs : List CartAttr := [⟨some "_is_gift", some "true"⟩]

/-- A paid (non-gift) line: id `L1`, quantity 2, total 30. -/
def linePaid : CartLineNode :=
  ⟨some "L1", some 2, some ⟨some ⟨some 30⟩⟩, some ⟨some "vA"⟩, none⟩

/-- A gift line of the configured variant with quantity 3. -/
def lineGiftV1Q3 : CartLineNode :=
  ⟨some "G1", some 3, some ⟨some ⟨some 0⟩⟩, some ⟨some "v1"⟩, some giftAttrs⟩

/-- A gift line of the configured variant with quantity 1. -/
def lineGiftV1Q1 : CartLineNode :=
  ⟨some "G1", some 1, some ⟨some ⟨some 0⟩⟩, some ⟨some "v1"⟩, some giftAttrs⟩

/-- A gift line of a wrong variant. -/
def lineGiftWrong : CartLineNode :=
  ⟨some "G2", some 1, some ⟨some ⟨some 0⟩⟩, some ⟨some "vX"⟩, some giftAttrs⟩

/-- A cart with one paid line and two gift lines (correct variant at
quantity 3, plus a wrong-variant gift). -/
def cartTwoGifts : Option CartLines :=
  some ⟨some [⟨some linePaid⟩, ⟨some lineGiftV1Q3⟩, ⟨some lineGiftWrong⟩]⟩

/-- A cart with the paid line only. -/
def cartNoGift : Option CartLines := some ⟨some [⟨some linePaid⟩]⟩

/-- A cart with the paid line and the correct gift at quantity 1. -/
def cartGiftQ1 : Option CartLines :=
  some ⟨some [⟨some linePaid⟩, ⟨some lineGiftV1Q1⟩]⟩

/-- A successful cart-query response around the given lines. -/
def cartRespOf (lines : Option CartLines) : CartQueryResp :=
  ⟨none, some ⟨some "cartA", lines⟩⟩

/-- A metafield response storing the negative subtotal string `"-5"`. -/
def instNegative : AppInstallationMetafields := ⟨some "v1", some "-5", some "true"⟩

/-- A metafield response storing the subtotal string `"30"`. -/
def instValid : AppInstallationMetafields := ⟨some "v1", some "30", some "true"⟩

/-- A discount-function input with two gift-flagged lines among three and
the Product class active. -/
def fnInputTwoGifts : CartInput :=
  ⟨⟨[⟨"l1", some "true"⟩, ⟨"l2", none⟩, ⟨"l3", some "true"⟩]⟩, ⟨[DiscountClass.Product]⟩⟩

/-! # Theorems -/

/-- C9: the banner's derived state is a pure function of the cart total
versus the threshold: `isEligible` is true iff
`cartTotalCents ≥ minSubtotalCents`, `remainingCents` equals
`max 0 (minSubtotalCents - cartTotalCents)`, and `remainingCents = 0`
whenever `isEligible` is true. -/
theorem calculateState_correct (cartTotalCents minSubtotalCents : ℤ) :
    ((calculateState minSubtotalCents cartTotalCents).isEligible = true ↔
      cartTotalCents ≥ minSubtotalCents) ∧
    (calculateState minSubtotalCents cartTotalCents).remainingCents =
      max 0 (minSubtotalCents - cartTotalCents) ∧
    ((calculateState minSubtotalCents cartTotalCents).isEligible = true →
      (calculateState minSubtotalCents cartTotalCents).remainingCents = 0) := by
  refine ⟨by simp [calculateState], rfl, ?_⟩
  intro h
  have h' : minSubtotalCents ≤ cartTotalCents := by simpa [calculateState] using h
  show max 0 (minSubtotalCents - cartTotalCents) = 0
  exact max_eq_left (sub_nonpos.mpr h')

/-- C9 witness: total 7000 against threshold 5000 is eligible with nothing
remaining. -/
theorem calculateState_correct_witness :
    (calculateState 5000 7000).isEligible = true ∧
      (calculateState 5000 7000).remainingCents = 0 := by
  have h := calculateState_correct 7000 5000
  exact ⟨h.1.mpr (by decide), h.2.2 (h.1.mpr (by decide))⟩

/-- C5: the discount function returns no operations when the cart's line
list is empty, the Product discount class is inactive, or no line is
gift-flagged; with k ≥ 1 gift-flagged lines and the Product class active it
returns exactly one operation holding one candidate per gift line, each at
100% and targeting exactly that line's id, with selection strategy
`First`. -/
theorem cartLinesDiscountsGenerateRun_correct (input : CartInput) :
    ((input.cart.lines = [] ∨ DiscountClass.Product ∉ input.discount.discountClasses ∨
        fnGiftLines input = []) →
      cartLinesDiscountsGenerateRun input = ⟨[]⟩) ∧
    (fnGiftLines input ≠ [] → DiscountClass.Product ∈ input.discount.discountClasses →
      (cartLinesDiscountsGenerateRun input =
          ⟨[⟨⟨(fnGiftLines input).map mkGiftCandidate,
            ProductDiscountSelectionStrategy.First⟩⟩]⟩ ∧
        ((fnGiftLines input).map mkGiftCandidate).length = (fnGiftLines input).length ∧
        (∀ c ∈ (fnGiftLines input).map mkGiftCandidate, c.value = ⟨⟨100⟩⟩) ∧
        ((fnGiftLines input).map mkGiftCandidate).map Candidate.targets =
          (fnGiftLines input).map fun line => [⟨line.id⟩])) := by
  constructor
  · intro h
    unfold cartLinesDiscountsGenerateRun
    split
    next => rfl
    next hlen =>
      dsimp only
      split
      next => rfl
      next hprod =>
        split
        next => rfl
        next hgift =>
          exfalso
          rcases h with h | h | h
          · exact hlen (by simp [h])
          · rcases hc : input.discount.discountClasses.contains DiscountClass.Product with _ | _
            · rw [hc] at hprod
              simp at hprod
            · exact h (List.elem_iff.mp hc)
          · exact hgift (by simp [h])
  · intro hg hc
    have hlines : input.cart.lines ≠ [] := by
      intro h0
      apply hg
      simp [fnGiftLines, h0]
    have hlen : input.cart.lines.length ≠ 0 := by
      simpa [List.length_eq_zero] using hlines
    have hcb : input.discount.discountClasses.contains DiscountClass.Product = true :=
      List.elem_iff.mpr hc
    have hglen : (fnGiftLines input).length ≠ 0 := by
      simpa [List.length_eq_zero] using hg
    refine ⟨?_, List.length_map _ _, ?_, ?_⟩
    · unfold cartLinesDiscountsGenerateRun
      rw [if_neg hlen]
      simp only [hcb, Bool.not_true, Bool.false_eq_true, if_false]
      rw [if_neg hglen]
    · intro c hcmem
      rcases List.mem_map.mp hcmem with ⟨l, _, rfl⟩
      rfl
    · rw [List.map_map]
      rfl

/-- C5 witness: three lines of which two are gift-flagged, Product class
active — one operation, two 100%-off candidates targeting `l1` and `l3`. -/
theorem cartLinesDiscountsGenerateRun_correct_witness :
    cartLinesDiscountsGenerateRun fnInputTwoGifts =
      ⟨[⟨⟨[⟨"Free gift item", [⟨"l1"⟩], ⟨⟨100⟩⟩⟩, ⟨"Free gift item", [⟨"l3"⟩], ⟨⟨100⟩⟩⟩],
        ProductDiscountSelectionStrategy.First⟩⟩]⟩ := by
  have h := (cartLinesDiscountsGenerateRun_correct fnInputTwoGifts).2
    (by decide) (by decide)
  rw [h.1]
  rfl

/-- C8 counterexample: a metafield response whose `min_cart_subtotal`
string parses negative (`"-5"`) makes `getGiftRules` return a configured
rule with `minCartSubtotal = -5 < 0`, so the invariant does not hold for
every possible metafield response. -/
theorem getGiftRules_negative_subtotal :
    getGiftRules (some instNegative) = some ⟨"v1", -5, true⟩ ∧
      ((-5 : ℚ) < 0) := by
  refine ⟨?_, by norm_num⟩
  have hp0 : jsParseFloat "-5" =
      some (-(((5 : ℕ) : ℚ) + (((0 : ℕ) : ℚ)) / ((10 : ℚ) ^ (0 : ℕ)))) := rfl
  have hp : jsParseFloat "-5" = some (-5) := by rw [hp0]; norm_num
  simp [getGiftRules, instNegative, jsStrOr, jsNumOr0, hp]

/-- C8 (amended): a non-null rule always has a non-empty `giftVariantId`;
`minCartSubtotal` is 0 when the stored string does not parse (absent,
empty or non-numeric strings), and is non-negative whenever the stored
string parses to a non-negative number — only a negative-parsing metafield
string produces a negative `minCartSubtotal`. -/
theorem getGiftRules_invariant (inst : AppInstallationMetafields) (r : GiftRule)
    (h : getGiftRules (some inst) = some r) :
    r.giftVariantId ≠ "" ∧
      (jsParseFloat (jsStrOr inst.min_cart_subtotal "0") = none →
        r.minCartSubtotal = 0) ∧
      (∀ q : ℚ, jsParseFloat (jsStrOr inst.min_cart_subtotal "0") = some q →
        0 ≤ q → 0 ≤ r.minCartSubtotal) := by
  unfold getGiftRules at h
  by_cases hv : jsStrOr inst.gift_variant_id "" = ""
  · simp [hv] at h
  · simp only [hv, if_false] at h
    cases h
    refine ⟨hv, ?_, ?_⟩
    · intro hn
      simp [jsNumOr0, hn]
    · intro q hq hq0
      simpa [jsNumOr0, hq] using hq0

/-- C8 witness: the stored string `"30"` parses to 30 ≥ 0 and the returned
rule indeed has a non-empty variant id and non-negative threshold. -/
theorem getGiftRules_invariant_witness :
    ("v1" : String) ≠ "" ∧
      (0 : ℚ) ≤ (getGiftRules (some instValid)).elim 0 GiftRule.minCartSubtotal := by
  have hp0 : jsParseFloat "30" =
      some ((((30 : ℕ) : ℚ)) + (((0 : ℕ) : ℚ)) / ((10 : ℚ) ^ (0 : ℕ))) := rfl
  have hp : jsParseFloat "30" = some 30 := by rw [hp0]; norm_num
  have he : getGiftRules (some instValid) = some ⟨"v1", 30, true⟩ := by
    simp [getGiftRules, instValid, jsStrOr, jsNumOr0, hp]
  have h := getGiftRules_invariant instValid ⟨"v1", 30, true⟩ he
  refine ⟨h.1, ?_⟩
  rw [he]
  exact h.2.2 30 (by simpa [instValid] using hp) (by norm_num)



/-! ## List-level lemmas about the cart helpers -/

/-- The subtotal fold, from any accumulator, adds the per-line
contributions. -/
theorem subtotal_foldl_eq (l : List CartEdge) (a : ℚ) :
    l.foldl
      (fun subtotal edge =>
        match edge.node with
        | none => subtotal
        | some node => if isGiftItem (some node) then subtotal else subtotal + lineCost node)
      a = a + (l.map lineContribution).sum := by
  induction l generalizing a with
  | nil => simp
  | cons e t ih =>
    rw [List.foldl_cons, ih, List.map_cons, List.sum_cons]
    unfold lineContribution
    cases hn : e.node with
    | none =>
      dsimp only
      ring
    | some n =>
      dsimp only
      by_cases hg : isGiftItem (some n) = true
      · simp only [if_pos hg]
        ring
      · simp only [if_neg hg]
        ring

/-- The gift-free subtotal is the sum of per-line contributions. -/
theorem calculateSubtotal_eq_sum (lines : Option CartLines) :
    calculateSubtotalWithoutGifts lines = ((edgesOf lines).map lineContribution).sum := by
  unfold calculateSubtotalWithoutGifts
  rw [subtotal_foldl_eq]
  ring

/-- Filtering gift nodes commutes with extracting nodes from gift edges. -/
theorem filterMap_node_filter_gift (l : List CartEdge) :
    (l.filterMap CartEdge.node).filter (fun n => isGiftItem (some n)) =
      (giftEdges l).filterMap CartEdge.node := by
  induction l with
  | nil => rfl
  | cons e t ih =>
    unfold giftEdges at ih ⊢
    cases hn : e.node with
    | none =>
      have hg : isGiftItem (none : Option CartLineNode) = false := rfl
      simp [List.filterMap_cons, hn, List.filter_cons, hg, ih]
    | some n =>
      have hge : isGiftItem e.node = isGiftItem (some n) := by rw [hn]
      by_cases hg : isGiftItem (some n) = true
      · simp [List.filterMap_cons, hn, List.filter_cons, hge, hg, ih]
      · have hg' : isGiftItem (some n) = false := Bool.eq_false_iff.mpr hg
        simp [List.filterMap_cons, hn, List.filter_cons, hge, hg', ih]

/-- `giftNodes` through `giftEdges`. -/
theorem giftNodes_eq (lines : Option CartLines) :
    giftNodes lines = (giftEdges (edgesOf lines)).filterMap CartEdge.node := by
  unfold giftNodes
  exact filterMap_node_filter_gift _

/-- `findGiftLineIds` through `giftEdges`. -/
theorem findGiftLineIds_eq (lines : Option CartLines) :
    findGiftLineIds lines =
      (giftEdges (edgesOf lines)).filterMap fun e => nonEmptyIdOpt (edgeId e) := by
  unfold findGiftLineIds giftEdges
  rw [List.filterMap_map]
  rfl

/-- A gift edge with a present non-empty id contributes that id to
`findGiftLineIds`. -/
theorem mem_findGiftLineIds (lines : Option CartLines) (e : CartEdge) (i : String)
    (he : e ∈ edgesOf lines) (hg : isGiftItem e.node = true)
    (hid : edgeId e = some i) (hi : i ≠ "") :
    i ∈ findGiftLineIds lines := by
  rw [findGiftLineIds_eq]
  refine List.mem_filterMap.mpr ⟨e, ?_, ?_⟩
  · exact List.mem_filter.mpr ⟨he, hg⟩
  · simp [nonEmptyIdOpt, hid, hi]

/-- Under well-formed ids, every edge carries a present non-empty id. -/
theorem wf_edge_id (lines : Option CartLines) (hwf : WfIds lines) (e : CartEdge)
    (he : e ∈ edgesOf lines) :
    ∃ i, edgeId e = some i ∧ i ≠ "" := by
  have h := hwf.1 e he
  unfold wfEdgeB at h
  cases hn : e.node with
  | none =>
    rw [hn] at h
    simp at h
  | some n =>
    rw [hn] at h
    dsimp only at h
    cases hi : n.id with
    | none =>
      rw [hi] at h
      simp at h
    | some i =>
      rw [hi] at h
      dsimp only at h
      refine ⟨i, ?_, by simpa using h⟩
      unfold edgeId
      rw [hn]
      exact hi

/-- Under well-formed ids, the gift edges' ids are pairwise distinct. -/
theorem wf_nodup_gift (lines : Option CartLines) (hwf : WfIds lines) :
    ((giftEdges (edgesOf lines)).filterMap edgeId).Nodup :=
  ((List.filter_sublist _).filterMap edgeId).nodup hwf.2

/-- In a list of edges with pairwise-distinct present ids, filtering for
one id returns exactly the one element carrying it. -/
theorem filter_id_eq_singleton (G : List CartEdge) (e0 : CartEdge) (gid : String)
    (hnd : (G.filterMap edgeId).Nodup)
    (hall : ∀ e ∈ G, edgeId e ≠ none)
    (he0 : e0 ∈ G) (hid : edgeId e0 = some gid) :
    G.filter (fun e => edgeId e == some gid) = [e0] := by
  induction G with
  | nil => cases he0
  | cons a t ih =>
    obtain ⟨ia, hia⟩ : ∃ ia, edgeId a = some ia := by
      cases ha : edgeId a with
      | none => exact absurd ha (hall a (List.mem_cons_self a t))
      | some ia => exact ⟨ia, rfl⟩
    have hnd' : (List.filterMap edgeId (a :: t)).Nodup := hnd
    rw [List.filterMap_cons, hia] at hnd'
    have hnotin : ia ∉ t.filterMap edgeId := (List.nodup_cons.mp hnd').1
    have hndt : (t.filterMap edgeId).Nodup := (List.nodup_cons.mp hnd').2
    by_cases heq : ia = gid
    · subst heq
      have hpa : (edgeId a == some ia) = true := by rw [hia]; simp
      rw [show List.filter (fun e => edgeId e == some ia) (a :: t) =
          a :: List.filter (fun e => edgeId e == some ia) t from by
        simp [List.filter_cons, hpa]]
      have hfilt : t.filter (fun e => edgeId e == some ia) = [] := by
        rw [List.filter_eq_nil]
        intro e het hbe
        have : edgeId e = some ia := by simpa using hbe
        exact hnotin (List.mem_filterMap.mpr ⟨e, het, this⟩)
      rw [hfilt]
      rcases List.mem_cons.mp he0 with h | h
      · rw [h]
      · exact absurd (List.mem_filterMap.mpr ⟨e0, h, hid⟩) hnotin
    · have hpa : ¬ (edgeId a == some gid) = true := by
        rw [hia]
        simp [heq]
      rw [show List.filter (fun e => edgeId e == some gid) (a :: t) =
          List.filter (fun e => edgeId e == some gid) t from by
        simp [List.filter_cons, hpa]]
      have he0t : e0 ∈ t := by
        rcases List.mem_cons.mp he0 with h | h
        · subst h
          rw [hia] at hid
          exact absurd (Option.some.inj hid) heq
        · exact h
      exact ih hndt (fun e het => hall e (List.mem_cons_of_mem a het)) he0t

/-- Removing a set of ids that covers every edge of `G` empties `G`. -/
theorem giftEdges_removed_all (G : List CartEdge) (ids : List String)
    (h : ∀ e ∈ G, ∃ i, edgeId e = some i ∧ i ∈ ids) :
    G.filter (keptByRemoval ids) = [] := by
  rw [List.filter_eq_nil]
  intro e he
  obtain ⟨i, hei, hmem⟩ := h e he
  simp [keptByRemoval, hei, List.contains, hmem]

/-- `giftEdges` commutes with any edge filter. -/
theorem giftEdges_filter_comm (l : List CartEdge) (p : CartEdge → Bool) :
    giftEdges (l.filter p) = (giftEdges l).filter p := by
  unfold giftEdges
  rw [List.filter_filter, List.filter_filter]
  exact List.filter_congr fun e _ => by rw [Bool.and_comm]

/-- A quantity update never changes gift-ness. -/
theorem isGiftItem_updateEdge (lineId : String) (qty : Nat) (e : CartEdge) :
    isGiftItem (updateEdgeQty lineId qty e).node = isGiftItem e.node := by
  unfold updateEdgeQty
  split
  · dsimp only
    cases e.node with
    | none => rfl
    | some n => rfl
  · rfl

/-- A quantity update never changes an edge's id. -/
theorem edgeId_updateEdge (lineId : String) (qty : Nat) (e : CartEdge) :
    edgeId (updateEdgeQty lineId qty e) = edgeId e := by
  unfold updateEdgeQty edgeId
  split
  · dsimp only
    cases e.node with
    | none => rfl
    | some n => rfl
  · rfl

/-- `giftEdges` commutes with mapping a quantity update. -/
theorem giftEdges_map_update (l : List CartEdge) (lineId : String) (qty : Nat) :
    giftEdges (l.map (updateEdgeQty lineId qty)) =
      (giftEdges l).map (updateEdgeQty lineId qty) := by
  unfold giftEdges
  rw [List.filter_map]
  congr 1
  exact List.filter_congr fun e _ => by
    show isGiftItem (updateEdgeQty lineId qty e).node = isGiftItem e.node
    exact isGiftItem_updateEdge lineId qty e

/-- `giftEdges` distributes over append. -/
theorem giftEdges_append (l₁ l₂ : List CartEdge) :
    giftEdges (l₁ ++ l₂) = giftEdges l₁ ++ giftEdges l₂ := by
  unfold giftEdges
  exact List.filter_append _ _

/-- A `find?` whose predicate entails gift-ness may be restricted to the
gift edges. -/
theorem find?_restrict_gift (l : List CartEdge) (p : CartEdge → Bool)
    (himp : ∀ e, p e = true → isGiftItem e.node = true) :
    l.find? p = (giftEdges l).find? p := by
  induction l with
  | nil => rfl
  | cons a t ih =>
    unfold giftEdges at ih ⊢
    by_cases hp : p a = true
    · have hg := himp a hp
      rw [List.find?_cons_of_pos _ hp,
        show List.filter (fun e => isGiftItem e.node) (a :: t) =
            a :: List.filter (fun e => isGiftItem e.node) t from by
          simp [List.filter_cons, hg],
        List.find?_cons_of_pos _ hp]
    · by_cases hg : isGiftItem a.node = true
      · rw [List.find?_cons_of_neg _ hp,
          show List.filter (fun e => isGiftItem e.node) (a :: t) =
              a :: List.filter (fun e => isGiftItem e.node) t from by
            simp [List.filter_cons, hg],
          List.find?_cons_of_neg _ hp]
        exact ih
      · rw [List.find?_cons_of_neg _ hp,
          show List.filter (fun e => isGiftItem e.node) (a :: t) =
              List.filter (fun e => isGiftItem e.node) t from by
            simp [List.filter_cons, hg]]
        exact ih

/-- What the correct-gift predicate means on a positive match. -/
theorem correctGiftEdgeB_gift (v : String) (e : CartEdge)
    (h : correctGiftEdgeB v e = true) :
    isGiftItem e.node = true ∧
      ∃ n, e.node = some n ∧ n.merchandise.bind Merchandise.id = some v := by
  unfold correctGiftEdgeB at h
  cases hn : e.node with
  | none => rw [hn] at h; cases h
  | some n =>
    rw [hn] at h
    rcases Bool.and_eq_true_iff.mp h with ⟨h1, h2⟩
    exact ⟨h1, n, rfl, by simpa using h2⟩

/-- Unpacking a successful `findCorrectGiftLine`. -/
theorem findCorrectGiftLine_spec (v : String) (lines : Option CartLines)
    (g : CartLineNode) (h : findCorrectGiftLine v lines = some g) :
    ∃ e, e ∈ edgesOf lines ∧ (edgesOf lines).find? (correctGiftEdgeB v) = some e ∧
      e.node = some g ∧ isGiftItem (some g) = true ∧
      g.merchandise.bind Merchandise.id = some v := by
  unfold findCorrectGiftLine at h
  cases hf : (edgesOf lines).find? (correctGiftEdgeB v) with
  | none => rw [hf] at h; cases h
  | some e =>
    rw [hf] at h
    have hp := List.find?_some hf
    obtain ⟨hg, n, hn, hm⟩ := correctGiftEdgeB_gift v e hp
    have hng : e.node = some g := h
    rw [hng] at hn
    cases Option.some.inj hn
    refine ⟨e, List.mem_of_find?_eq_some hf, rfl, hng, ?_, hm⟩
    rw [← hng]
    exact hg

/-! ## Response bridges and flow characterizations -/

/-- The `userErrors` scan succeeds exactly when every data key carries an
empty (or absent) `userErrors` list. -/
theorem userErrorsCheck_ok_iff (d : List (String × MutationPayload)) (op : String) :
    userErrorsCheck d op = Except.ok () ↔
      (d.all fun kv => (kv.2.userErrors.getD []).length = 0) = true := by
  unfold userErrorsCheck
  cases hf : d.find? (fun kv => 0 < (kv.2.userErrors.getD []).length) with
  | none =>
    constructor
    · intro _
      rw [List.all_eq_true]
      intro kv hkv
      have := List.find?_eq_none.mp hf kv hkv
      simp only [decide_eq_true_eq] at this ⊢
      omega
    · intro _
      rfl
  | some kv =>
    have hp := List.find?_some hf
    have hmem := List.mem_of_find?_eq_some hf
    constructor
    · intro h
      cases h
    · intro h
      have hkv := List.all_eq_true.mp h kv hmem
      simp only [decide_eq_true_eq] at hp hkv
      omega

/-- `handleGraphQLErrors` succeeds exactly when `gqlOkB` holds. -/
theorem handle_ok_iff (r : GQLResp) (op : String) :
    handleGraphQLErrors r op = Except.ok () ↔ gqlOkB r = true := by
  unfold handleGraphQLErrors gqlOkB
  cases he : r.errors with
  | none =>
    simp [userErrorsCheck_ok_iff]
  | some es =>
    cases es with
    | nil => simp [userErrorsCheck_ok_iff]
    | cons e es' => simp

/-- Two edges of an id-distinct list carrying the same id are the same
edge. -/
theorem nodup_same_id (l : List CartEdge) (hnd : (l.filterMap edgeId).Nodup)
    (e e' : CartEdge) (he : e ∈ l) (he' : e' ∈ l) (i : String)
    (hi : edgeId e = some i) (hi' : edgeId e' = some i) : e = e' := by
  induction l with
  | nil => cases he
  | cons a t ih =>
    have hndt : (List.filterMap edgeId t).Nodup := by
      rw [List.filterMap_cons] at hnd
      cases ha : edgeId a with
      | none => rw [ha] at hnd; exact hnd
      | some b => rw [ha] at hnd; exact (List.nodup_cons.mp hnd).2
    have hnotin : ∀ b, edgeId a = some b → b ∉ List.filterMap edgeId t := by
      intro b hb hbmem
      rw [List.filterMap_cons, hb] at hnd
      exact (List.nodup_cons.mp hnd).1 hbmem
    rcases List.mem_cons.mp he with h1 | h1
    · rcases List.mem_cons.mp he' with h2 | h2
      · rw [h1, h2]
      · exfalso
        refine hnotin i ?_ (List.mem_filterMap.mpr ⟨e', h2, hi'⟩)
        rw [← h1]
        exact hi
    · rcases List.mem_cons.mp he' with h2 | h2
      · exfalso
        refine hnotin i ?_ (List.mem_filterMap.mpr ⟨e, h1, hi⟩)
        rw [← h2]
        exact hi'
      · exact ih hndt h1 h2

/-- Under well-formed ids, an id listed in `findGiftLineIds` belongs to a
gift edge, so any edge carrying it is a gift edge. -/
theorem gift_of_id_mem (lines : Option CartLines) (hwf : WfIds lines)
    (e : CartEdge) (he : e ∈ edgesOf lines) (i : String)
    (hi : edgeId e = some i) (hmem : i ∈ findGiftLineIds lines) :
    isGiftItem e.node = true := by
  rw [findGiftLineIds_eq] at hmem
  obtain ⟨e', he', hne'⟩ := List.mem_filterMap.mp hmem
  have he'mem : e' ∈ edgesOf lines := (List.mem_filter.mp he').1
  have he'gift : isGiftItem e'.node = true := (List.mem_filter.mp he').2
  have hi' : edgeId e' = some i := by
    unfold nonEmptyIdOpt at hne'
    cases hei : edgeId e' with
    | none =>
      rw [hei] at hne'
      simp at hne'
    | some s =>
      rw [hei] at hne'
      dsimp only at hne'
      by_cases hs : s = ""
      · rw [if_pos hs] at hne'
        simp at hne'
      · rw [if_neg hs] at hne'
        exact hne'
  have := nodup_same_id (edgesOf lines) hwf.2 e e' he he'mem i hi hi'
  rw [this]
  exact he'gift

/-- Removing an empty id list keeps every edge. -/
theorem filter_keptByRemoval_nil (l : List CartEdge) :
    l.filter (keptByRemoval []) = l := by
  rw [List.filter_eq_self]
  intro e _
  unfold keptByRemoval
  cases edgeId e <;> rfl

/-- The edges after the eligible branch's removal step. -/
theorem edges_after_removeTrace (giftRules : GiftRule) (lines : Option CartLines)
    (freshId : String) :
    edgesOf (applyMutations freshId lines (removeTrace giftRules lines)) =
      (edgesOf lines).filter (keptByRemoval (giftItemsToRemoveOf giftRules lines)) := by
  unfold removeTrace
  by_cases h : 0 < (giftItemsToRemoveOf giftRules lines).length
  · rw [if_pos h]
    rfl
  · rw [if_neg h]
    have : giftItemsToRemoveOf giftRules lines = [] := by
      cases hl : giftItemsToRemoveOf giftRules lines with
      | nil => rfl
      | cons x xs => rw [hl] at h; simp at h
    rw [this, filter_keptByRemoval_nil]
    rfl

/-- `afterRemoval` under successful update/add responses. -/
theorem afterRemoval_ok (rs : Responses) (giftRules : GiftRule)
    (giftLine : Option CartLineNode)
    (hupd : gqlOkB rs.updateResp = true) (hadd : gqlOkB rs.addResp = true) :
    afterRemoval rs giftRules giftLine =
      match correctGiftId giftLine with
      | some gid =>
        if 1 < (giftLine.bind CartLineNode.quantity).getD 0 then
          (⟨true, none, "Gift quantity updated to 1"⟩, [CartMutation.updateQty gid 1])
        else (⟨false, none, "Gift already added to cart with correct quantity"⟩, [])
      | none =>
        (⟨true, none, "Gift applied successfully"⟩,
          [CartMutation.add ⟨1, giftRules.giftVariantId, [("_is_gift", "true")]⟩]) := by
  unfold afterRemoval
  cases correctGiftId giftLine with
  | some gid =>
    dsimp only
    by_cases hq : 1 < (giftLine.bind CartLineNode.quantity).getD 0
    · rw [if_pos hq]
      unfold updateGiftQuantityM
      rw [(handle_ok_iff _ _).mpr hupd]
      rw [if_pos hq]
    · rw [if_neg hq]
      rw [if_neg hq]
  | none =>
    dsimp only
    unfold addGiftItemM
    rw [(handle_ok_iff _ _).mpr hadd]

/-- `eligibleFlow` under a successful removal response: the result is
`afterRemoval`'s and the trace is the removal calls followed by
`afterRemoval`'s. -/
theorem eligibleFlow_ok (rs : Responses) (giftRules : GiftRule)
    (lines : Option CartLines) (hrem : gqlOkB rs.removeResp = true) :
    eligibleFlow rs giftRules lines =
      ((afterRemoval rs giftRules (findCorrectGiftLine giftRules.giftVariantId lines)).1,
        removeTrace giftRules lines ++
          (afterRemoval rs giftRules (findCorrectGiftLine giftRules.giftVariantId lines)).2) := by
  unfold eligibleFlow removeTrace
  dsimp only
  by_cases h : 0 < (giftItemsToRemoveOf giftRules lines).length
  · rw [if_pos h, if_pos h]
    unfold removeGiftItemsM
    rw [if_neg (by omega)]
    rw [(handle_ok_iff _ _).mpr hrem]
  · rw [if_neg h, if_neg h]

/-- `applyGiftLogic` for an enabled rule and a fetched cart dispatches on
the gift-free subtotal. -/
theorem applyGiftLogic_branch (rule : GiftRule) (cartResp : CartQueryResp)
    (rs : Responses) (cart : CartData) (hen : rule.enableRule = true)
    (hcart : getCartData cartResp = Except.ok cart) :
    applyGiftLogic (some rule) cartResp rs =
      if calculateSubtotalWithoutGifts cart.lines < rule.minCartSubtotal then
        ineligibleFlow rs (calculateSubtotalWithoutGifts cart.lines)
          rule.minCartSubtotal cart.lines
      else eligibleFlow rs rule cart.lines := by
  unfold applyGiftLogic
  dsimp only
  rw [hen, hcart]
  rfl

/-- `ineligibleFlow` under a successful removal response. -/
theorem ineligibleFlow_ok (rs : Responses) (a m : ℚ) (lines : Option CartLines)
    (hrem : gqlOkB rs.removeResp = true) :
    (findGiftLineIds lines = [] ∧
      ineligibleFlow rs a m lines = (⟨false, none, ineligibleReason a m⟩, [])) ∨
    (findGiftLineIds lines ≠ [] ∧
      ineligibleFlow rs a m lines =
        (⟨false, some true, ineligibleRemovedReason a m⟩,
          [CartMutation.remove (findGiftLineIds lines)])) := by
  unfold ineligibleFlow
  by_cases hg : findGiftLineIds lines = []
  · left
    refine ⟨hg, ?_⟩
    rw [hg]
    rfl
  · right
    refine ⟨hg, ?_⟩
    have hlen : 0 < (findGiftLineIds lines).length := by
      cases hl : findGiftLineIds lines with
      | nil => exact absurd hl hg
      | cons x xs => simp
    rw [if_pos hlen]
    unfold removeGiftItemsM
    rw [if_neg (by omega)]
    rw [(handle_ok_iff _ _).mpr hrem]

/-! ## Survivor analysis of the removal step -/

/-- With a correct gift line found, the eligible branch's removal leaves
exactly its edge among the gift edges. -/
theorem giftEdges_after_removal_correct (giftRules : GiftRule) (lines : Option CartLines)
    (hwf : WfIds lines) (g0 : CartLineNode)
    (hfind : findCorrectGiftLine giftRules.giftVariantId lines = some g0) :
    ∃ e0 gid, e0 ∈ edgesOf lines ∧ e0.node = some g0 ∧ g0.id = some gid ∧ gid ≠ "" ∧
      giftEdges ((edgesOf lines).filter
        (keptByRemoval (giftItemsToRemoveOf giftRules lines))) = [e0] := by
  obtain ⟨e0, he0, hf0, hnode, hgift, hmerch⟩ :=
    findCorrectGiftLine_spec giftRules.giftVariantId lines g0 hfind
  obtain ⟨gid, hgid, hgne⟩ := wf_edge_id lines hwf e0 he0
  have hg0id : g0.id = some gid := by
    unfold edgeId at hgid
    rw [hnode] at hgid
    exact hgid
  refine ⟨e0, gid, he0, hnode, hg0id, hgne, ?_⟩
  rw [giftEdges_filter_comm]
  have hcongr : ∀ e ∈ giftEdges (edgesOf lines),
      keptByRemoval (giftItemsToRemoveOf giftRules lines) e = (edgeId e == some gid) := by
    intro e he
    have hemem : e ∈ edgesOf lines := (List.mem_filter.mp he).1
    have hegift : isGiftItem e.node = true := (List.mem_filter.mp he).2
    obtain ⟨i, hei, hine⟩ := wf_edge_id lines hwf e hemem
    have himem : i ∈ findGiftLineIds lines :=
      mem_findGiftLineIds lines e i hemem hegift hei hine
    have hbind : (findCorrectGiftLine giftRules.giftVariantId lines).bind
        CartLineNode.id = some gid := by
      rw [hfind]
      exact hg0id
    unfold keptByRemoval giftItemsToRemoveOf
    rw [hei]
    dsimp only
    by_cases hig : i = gid
    · subst hig
      have hnotmem : i ∉ (findGiftLineIds lines).filter fun j =>
          !((findCorrectGiftLine giftRules.giftVariantId lines).bind
            CartLineNode.id == some j) := by
        intro hc
        have := (List.mem_filter.mp hc).2
        rw [hbind] at this
        simp at this
      have hcf : ((findGiftLineIds lines).filter fun j =>
          !((findCorrectGiftLine giftRules.giftVariantId lines).bind
            CartLineNode.id == some j)).contains i = false := by
        cases hc : ((findGiftLineIds lines).filter fun j =>
            !((findCorrectGiftLine giftRules.giftVariantId lines).bind
              CartLineNode.id == some j)).contains i
        · rfl
        · exact absurd (List.elem_iff.mp hc) hnotmem
      rw [hcf]
      simp
    · have hmem' : i ∈ (findGiftLineIds lines).filter fun j =>
          !((findCorrectGiftLine giftRules.giftVariantId lines).bind
            CartLineNode.id == some j) := by
        refine List.mem_filter.mpr ⟨himem, ?_⟩
        rw [hbind]
        simp [Ne.symm hig]
      have hcf : ((findGiftLineIds lines).filter fun j =>
          !((findCorrectGiftLine giftRules.giftVariantId lines).bind
            CartLineNode.id == some j)).contains i = true :=
        List.elem_iff.mpr hmem'
      rw [hcf]
      simp [hig]
  rw [List.filter_congr hcongr]
  refine filter_id_eq_singleton _ e0 gid (wf_nodup_gift lines hwf) ?_ ?_ hgid
  · intro e he
    obtain ⟨i, hei, _⟩ := wf_edge_id lines hwf e (List.mem_filter.mp he).1
    rw [hei]
    exact Option.some_ne_none i
  · exact List.mem_filter.mpr ⟨he0, by rw [hnode]; exact hgift⟩

/-- Removing a superset of every gift line id leaves no gift edge. -/
theorem giftEdges_after_removing_all (lines : Option CartLines) (hwf : WfIds lines)
    (ids : List String) (hsub : ∀ i, i ∈ findGiftLineIds lines → i ∈ ids) :
    giftEdges ((edgesOf lines).filter (keptByRemoval ids)) = [] := by
  rw [giftEdges_filter_comm]
  apply giftEdges_removed_all
  intro e he
  have hemem : e ∈ edgesOf lines := (List.mem_filter.mp he).1
  have hegift : isGiftItem e.node = true := (List.mem_filter.mp he).2
  obtain ⟨i, hi, hine⟩ := wf_edge_id lines hwf e hemem
  exact ⟨i, hi, hsub i (mem_findGiftLineIds lines e i hemem hegift hi hine)⟩

/-- With no correct gift line, the eligible branch's removal list covers
every gift line id. -/
theorem giftItemsToRemoveOf_all (giftRules : GiftRule) (lines : Option CartLines)
    (hfind : findCorrectGiftLine giftRules.giftVariantId lines = none) :
    ∀ i, i ∈ findGiftLineIds lines → i ∈ giftItemsToRemoveOf giftRules lines := by
  intro i hi
  unfold giftItemsToRemoveOf
  refine List.mem_filter.mpr ⟨hi, ?_⟩
  rw [hfind]
  rfl

/-! ## Subtotal preservation -/

/-- Dropping only zero-contribution edges preserves the contribution sum. -/
theorem sum_contrib_filter (l : List CartEdge) (p : CartEdge → Bool)
    (h : ∀ e ∈ l, p e = false → lineContribution e = 0) :
    ((l.filter p).map lineContribution).sum = (l.map lineContribution).sum := by
  induction l with
  | nil => rfl
  | cons a t ih =>
    have iht := ih fun e he hpe => h e (List.mem_cons_of_mem a he) hpe
    by_cases hp : p a = true
    · rw [show List.filter p (a :: t) = a :: List.filter p t from by
        simp [List.filter_cons, hp]]
      simp only [List.map_cons, List.sum_cons, iht]
    · have hp0 : p a = false := Bool.eq_false_iff.mpr hp
      rw [show List.filter p (a :: t) = List.filter p t from by
        simp [List.filter_cons, hp0]]
      rw [iht, List.map_cons, List.sum_cons, h a (List.mem_cons_self a t) hp0]
      ring

/-- A quantity update leaves a line's contribution unchanged. -/
theorem contribution_update (lineId : String) (qty : Nat) (e : CartEdge) :
    lineContribution (updateEdgeQty lineId qty e) = lineContribution e := by
  unfold updateEdgeQty
  split
  · unfold lineContribution
    dsimp only
    cases e.node with
    | none => rfl
    | some n => rfl
  · rfl

/-- An edge dropped by a removal whose id list only holds gift line ids
contributed nothing to the subtotal. -/
theorem contribution_zero_of_removed (lines : Option CartLines) (hwf : WfIds lines)
    (ids : List String) (hsub : ∀ i, i ∈ ids → i ∈ findGiftLineIds lines)
    (e : CartEdge) (he : e ∈ edgesOf lines)
    (hdrop : keptByRemoval ids e = false) : lineContribution e = 0 := by
  unfold keptByRemoval at hdrop
  cases hei : edgeId e with
  | none =>
    rw [hei] at hdrop
    simp at hdrop
  | some i =>
    rw [hei] at hdrop
    dsimp only at hdrop
    have hmem : i ∈ ids := by
      have hc : ids.contains i = true := by
        cases hc' : ids.contains i
        · rw [hc'] at hdrop
          simp at hdrop
        · rfl
      exact List.elem_iff.mp hc
    have hgift := gift_of_id_mem lines hwf e he i hei (hsub i hmem)
    unfold lineContribution
    cases hn : e.node with
    | none => rfl
    | some n =>
      rw [hn] at hgift
      dsimp only
      rw [if_pos hgift]

/-- `applyMutations` over an appended trace. -/
theorem applyMutations_append (freshId : String) (lines : Option CartLines)
    (tr1 tr2 : List CartMutation) :
    applyMutations freshId lines (tr1 ++ tr2) =
      applyMutations freshId (applyMutations freshId lines tr1) tr2 :=
  List.foldl_append _ _ _ _

/-- A one-mutation trace applies that mutation. -/
theorem applyMutations_singleton (freshId : String) (lines : Option CartLines)
    (m : CartMutation) :
    applyMutations freshId lines [m] = applyMutation freshId lines m := rfl

/-- Edges after a quantity-update mutation. -/
theorem edges_applyMutation_update (freshId : String) (lines : Option CartLines)
    (gid : String) (qty : Nat) :
    edgesOf (applyMutation freshId lines (CartMutation.updateQty gid qty)) =
      (edgesOf lines).map (updateEdgeQty gid qty) := rfl

/-- Edges after an add mutation. -/
theorem edges_applyMutation_add (freshId : String) (lines : Option CartLines)
    (inp : AddGiftInput) :
    edgesOf (applyMutation freshId lines (CartMutation.add inp)) =
      edgesOf lines ++ [newGiftEdge freshId inp] := rfl

/-- Mapping a quantity update preserves the contribution sum. -/
theorem sum_contrib_map_update (l : List CartEdge) (lineId : String) (qty : Nat) :
    ((l.map (updateEdgeQty lineId qty)).map lineContribution).sum =
      (l.map lineContribution).sum := by
  rw [List.map_map]
  exact congrArg List.sum
    (List.map_congr_left fun e _ => contribution_update lineId qty e)

/-- After a successful run of the eligible branch exactly one gift edge
remains; it carries the configured variant, quantity at most 1 (exactly 1
unless the correct line already had a sub-1 quantity), and is the first
correct line when one existed, else the freshly added line. -/
theorem eligible_final_gift (rs : Responses) (giftRules : GiftRule)
    (lines : Option CartLines) (freshId : String) (hwf : WfIds lines)
    (hrem : gqlOkB rs.removeResp = true) (hupd : gqlOkB rs.updateResp = true)
    (hadd : gqlOkB rs.addResp = true) :
    ∃ e g,
      giftEdges (edgesOf (applyMutations freshId lines
          (eligibleFlow rs giftRules lines).2)) = [e] ∧
      e.node = some g ∧
      g.merchandise.bind Merchandise.id = some giftRules.giftVariantId ∧
      g.quantity.getD 0 ≤ 1 ∧
      (match findCorrectGiftLine giftRules.giftVariantId lines with
       | some g0 =>
         g.id = g0.id ∧ g.merchandise = g0.merchandise ∧ g.attributes = g0.attributes ∧
           g.quantity = if 1 < g0.quantity.getD 0 then some 1 else g0.quantity
       | none =>
         g.id = some freshId ∧ g.quantity = some 1 ∧
           g.attributes = some [⟨some "_is_gift", some "true"⟩]) := by
  rw [eligibleFlow_ok rs giftRules lines hrem, afterRemoval_ok rs giftRules _ hupd hadd]
  cases hfind : findCorrectGiftLine giftRules.giftVariantId lines with
  | some g0 =>
    obtain ⟨e0, gid, he0, hnode, hg0id, hgne, hsurv⟩ :=
      giftEdges_after_removal_correct giftRules lines hwf g0 hfind
    obtain ⟨_, _, _, _, _, hmerch⟩ :=
      findCorrectGiftLine_spec giftRules.giftVariantId lines g0 hfind
    have hei0 : edgeId e0 = some gid := by
      unfold edgeId
      rw [hnode]
      exact hg0id
    have hcg : correctGiftId (some g0) = some gid := by
      unfold correctGiftId
      dsimp only
      rw [hg0id]
      dsimp only
      rw [if_neg hgne]
    rw [hcg]
    dsimp only
    by_cases hq : 1 < ((some g0).bind CartLineNode.quantity).getD 0
    · rw [if_pos hq]
      dsimp only
      rw [applyMutations_append, applyMutations_singleton, edges_applyMutation_update,
        edges_after_removeTrace, giftEdges_map_update, hsurv]
      simp only [List.map_cons, List.map_nil]
      have hupd0 : updateEdgeQty gid 1 e0 =
          ⟨some ⟨g0.id, some 1, g0.cost, g0.merchandise, g0.attributes⟩⟩ := by
        unfold updateEdgeQty
        rw [show (edgeId e0 == some gid) = true from by rw [hei0]; simp, if_pos rfl]
        rw [hnode]
        rfl
      refine ⟨updateEdgeQty gid 1 e0,
        ⟨g0.id, some 1, g0.cost, g0.merchandise, g0.attributes⟩, rfl, ?_, ?_, ?_, ?_⟩
      · rw [hupd0]
      · exact hmerch
      · simp
      · exact ⟨rfl, rfl, rfl, by rw [if_pos (by simpa using hq)]⟩
    · rw [if_neg hq]
      dsimp only
      rw [List.append_nil]
      have hqle : g0.quantity.getD 0 ≤ 1 := by
        have := hq
        simp only [Option.some_bind] at this
        omega
      refine ⟨e0, g0, ?_, hnode, hmerch, hqle, ?_⟩
      · rw [edges_after_removeTrace]
        exact hsurv
      · exact ⟨rfl, rfl, rfl, by rw [if_neg (by simpa using hq)]⟩
  | none =>
    rw [show correctGiftId none = none from rfl]
    dsimp only
    rw [applyMutations_append, applyMutations_singleton, edges_applyMutation_add,
      giftEdges_append, edges_after_removeTrace,
      giftEdges_after_removing_all lines hwf _ (giftItemsToRemoveOf_all giftRules lines hfind)]
    refine ⟨newGiftEdge freshId ⟨1, giftRules.giftVariantId, [("_is_gift", "true")]⟩,
      ⟨some freshId, some 1, none, some ⟨some giftRules.giftVariantId⟩,
        some [⟨some "_is_gift", some "true"⟩]⟩, ?_, rfl, rfl, by simp, ⟨rfl, rfl, rfl⟩⟩
    rfl

/-- A successful run of the eligible branch leaves the gift-free subtotal
unchanged (it only removes gift lines, rewrites a gift quantity, or adds a
gift line). -/
theorem eligible_final_subtotal (rs : Responses) (giftRules : GiftRule)
    (lines : Option CartLines) (freshId : String) (hwf : WfIds lines)
    (hrem : gqlOkB rs.removeResp = true) (hupd : gqlOkB rs.updateResp = true)
    (hadd : gqlOkB rs.addResp = true) :
    calculateSubtotalWithoutGifts
        (applyMutations freshId lines (eligibleFlow rs giftRules lines).2) =
      calculateSubtotalWithoutGifts lines := by
  rw [eligibleFlow_ok rs giftRules lines hrem, afterRemoval_ok rs giftRules _ hupd hadd]
  have hsub : ∀ i, i ∈ giftItemsToRemoveOf giftRules lines → i ∈ findGiftLineIds lines := by
    intro i hi
    exact (List.mem_filter.mp hi).1
  have hmid : calculateSubtotalWithoutGifts
      (applyMutations freshId lines (removeTrace giftRules lines)) =
      calculateSubtotalWithoutGifts lines := by
    rw [calculateSubtotal_eq_sum, calculateSubtotal_eq_sum, edges_after_removeTrace]
    exact sum_contrib_filter _ _ fun e he hpe =>
      contribution_zero_of_removed lines hwf _ hsub e he hpe
  cases hfind : findCorrectGiftLine giftRules.giftVariantId lines with
  | some g0 =>
    obtain ⟨e0, gid, he0, hnode, hg0id, hgne, hsurv⟩ :=
      giftEdges_after_removal_correct giftRules lines hwf g0 hfind
    have hcg : correctGiftId (some g0) = some gid := by
      unfold correctGiftId
      dsimp only
      rw [hg0id]
      dsimp only
      rw [if_neg hgne]
    rw [hcg]
    dsimp only
    by_cases hq : 1 < ((some g0).bind CartLineNode.quantity).getD 0
    · rw [if_pos hq]
      dsimp only
      rw [applyMutations_append, applyMutations_singleton, calculateSubtotal_eq_sum,
        edges_applyMutation_update, sum_contrib_map_update, ← calculateSubtotal_eq_sum]
      exact hmid
    · rw [if_neg hq]
      dsimp only
      rw [List.append_nil]
      exact hmid
  | none =>
    rw [show correctGiftId none = none from rfl]
    dsimp only
    rw [applyMutations_append, applyMutations_singleton, calculateSubtotal_eq_sum,
      edges_applyMutation_add, List.map_append, List.sum_append]
    have hc0 : lineContribution (newGiftEdge freshId
        ⟨1, giftRules.giftVariantId, [("_is_gift", "true")]⟩) = 0 := rfl
    rw [show ([newGiftEdge freshId
        ⟨1, giftRules.giftVariantId, [("_is_gift", "true")]⟩].map lineContribution).sum =
        0 from by simp [hc0]]
    rw [← calculateSubtotal_eq_sum, hmid]
    ring

/-- Under well-formed ids, no gift line id means no gift edge. -/
theorem giftEdges_nil_of_no_ids (lines : Option CartLines) (hwf : WfIds lines)
    (h : findGiftLineIds lines = []) : giftEdges (edgesOf lines) = [] := by
  cases hE : giftEdges (edgesOf lines) with
  | nil => rfl
  | cons e t =>
    exfalso
    have he : e ∈ giftEdges (edgesOf lines) := by
      rw [hE]
      exact List.mem_cons_self e t
    have hemem := (List.mem_filter.mp he).1
    have hegift := (List.mem_filter.mp he).2
    obtain ⟨i, hi, hine⟩ := wf_edge_id lines hwf e hemem
    have hmem := mem_findGiftLineIds lines e i hemem hegift hi hine
    rw [h] at hmem
    cases hmem

/-- A cart has no gift node exactly when it has no gift edge. -/
theorem giftNodes_nil_iff (lines : Option CartLines) :
    giftNodes lines = [] ↔ giftEdges (edgesOf lines) = [] := by
  rw [giftNodes_eq]
  constructor
  · intro h
    cases hE : giftEdges (edgesOf lines) with
    | nil => rfl
    | cons e t =>
      exfalso
      have he : e ∈ giftEdges (edgesOf lines) := by
        rw [hE]
        exact List.mem_cons_self e t
      have hegift : isGiftItem e.node = true := (List.mem_filter.mp he).2
      cases hn : e.node with
      | none =>
        rw [hn] at hegift
        cases hegift
      | some n =>
        have hmem : n ∈ (giftEdges (edgesOf lines)).filterMap CartEdge.node :=
          List.mem_filterMap.mpr ⟨e, he, hn⟩
        rw [h] at hmem
        cases hmem
  · intro h
    rw [h]
    rfl

/-- After a successful run of the ineligible branch no gift edge remains
and the gift-free subtotal is unchanged. -/
theorem ineligible_final (rs : Responses) (a m : ℚ) (lines : Option CartLines)
    (freshId : String) (hwf : WfIds lines) (hrem : gqlOkB rs.removeResp = true) :
    giftEdges (edgesOf (applyMutations freshId lines (ineligibleFlow rs a m lines).2)) = [] ∧
      calculateSubtotalWithoutGifts
          (applyMutations freshId lines (ineligibleFlow rs a m lines).2) =
        calculateSubtotalWithoutGifts lines := by
  rcases ineligibleFlow_ok rs a m lines hrem with ⟨hg, heq⟩ | ⟨hg, heq⟩
  · rw [heq]
    exact ⟨giftEdges_nil_of_no_ids lines hwf hg, rfl⟩
  · rw [heq]
    dsimp only
    rw [applyMutations_singleton]
    constructor
    · exact giftEdges_after_removing_all lines hwf _ fun i hi => hi
    · rw [calculateSubtotal_eq_sum, calculateSubtotal_eq_sum]
      rw [show edgesOf (applyMutation freshId lines
          (CartMutation.remove (findGiftLineIds lines))) =
          (edgesOf lines).filter (keptByRemoval (findGiftLineIds lines)) from rfl]
      exact sum_contrib_filter _ _ fun e he hpe =>
        contribution_zero_of_removed lines hwf _ (fun i hi => hi) e he hpe

/-- The fixture cart with two gift lines has gift-free subtotal 30. -/
theorem subtotal_cartTwoGifts : calculateSubtotalWithoutGifts cartTwoGifts = 30 := by
  norm_num [calculateSubtotalWithoutGifts, edgesOf, cartTwoGifts, linePaid, lineGiftV1Q3,
    lineGiftWrong, isGiftItem, giftAttrs, lineCost]

/-- The gift-free fixture cart has gift-free subtotal 30. -/
theorem subtotal_cartNoGift : calculateSubtotalWithoutGifts cartNoGift = 30 := by
  norm_num [calculateSubtotalWithoutGifts, edgesOf, cartNoGift, linePaid, isGiftItem, lineCost]

/-- The fixture cart with one correct gift at quantity 1 has gift-free
subtotal 30. -/
theorem subtotal_cartGiftQ1 : calculateSubtotalWithoutGifts cartGiftQ1 = 30 := by
  norm_num [calculateSubtotalWithoutGifts, edgesOf, cartGiftQ1, linePaid, lineGiftV1Q1,
    isGiftItem, giftAttrs, lineCost]

/-- C1: for every enabled, configured rule and eligible cart (gift-free
subtotal ≥ `minCartSubtotal`), a successful `applyGiftLogic` run leaves
exactly one gift line in the cart; it matches `rule.giftVariantId` and has
quantity 1, the survivor being the first gift line of the correct variant
when one existed (its quantity reset to 1 when above 1) and the freshly
added gift line otherwise.  Platform well-formedness of the cart (present,
distinct, non-empty line ids; quantities ≥ 1) and success of the issued
mutations are assumed. -/
theorem applyGiftLogic_eligible_invariant (rule : GiftRule) (cartResp : CartQueryResp)
    (rs : Responses) (cart : CartData) (freshId : String)
    (hen : rule.enableRule = true)
    (hcart : getCartData cartResp = Except.ok cart)
    (helig : ¬ calculateSubtotalWithoutGifts cart.lines < rule.minCartSubtotal)
    (hwf : WfIds cart.lines) (hqty : WfQty cart.lines)
    (hrem : gqlOkB rs.removeResp = true) (hupd : gqlOkB rs.updateResp = true)
    (hadd : gqlOkB rs.addResp = true) :
    ∃ g : CartLineNode,
      giftNodes (applyMutations freshId cart.lines
          (applyGiftLogic (some rule) cartResp rs).2) = [g] ∧
      g.merchandise.bind Merchandise.id = some rule.giftVariantId ∧
      g.quantity = some 1 ∧
      (∀ g0, findCorrectGiftLine rule.giftVariantId cart.lines = some g0 →
        g.id = g0.id) := by
  rw [applyGiftLogic_branch rule cartResp rs cart hen hcart, if_neg helig]
  obtain ⟨e, g, hsurv, hnode, hmerch, hqle, hmatch⟩ :=
    eligible_final_gift rs rule cart.lines freshId hwf hrem hupd hadd
  refine ⟨g, ?_, hmerch, ?_, ?_⟩
  · rw [giftNodes_eq, hsurv]
    simp [List.filterMap_cons, hnode]
  · cases hfind : findCorrectGiftLine rule.giftVariantId cart.lines with
    | some g0 =>
      rw [hfind] at hmatch
      dsimp only at hmatch
      obtain ⟨hid, _, _, hqeq⟩ := hmatch
      by_cases hq : 1 < g0.quantity.getD 0
      · rw [hqeq, if_pos hq]
      · obtain ⟨e0, he0, _, hnode0, _, _⟩ :=
          findCorrectGiftLine_spec rule.giftVariantId cart.lines g0 hfind
        have hwq := hqty e0 he0
        unfold wfQtyB at hwq
        rw [hnode0] at hwq
        dsimp only at hwq
        cases hq0 : g0.quantity with
        | none =>
          rw [hq0] at hwq
          simp at hwq
        | some q =>
          rw [hq0] at hwq
          have h1q : 1 ≤ q := by simpa using hwq
          have hle : q ≤ 1 := by
            rw [hq0] at hq
            simpa using hq
          rw [hqeq, if_neg hq, hq0, show q = 1 from by omega]
    | none =>
      rw [hfind] at hmatch
      dsimp only at hmatch
      exact hmatch.2.1
  · intro g0 hf0
    cases hfind : findCorrectGiftLine rule.giftVariantId cart.lines with
    | some g0' =>
      rw [hfind] at hmatch hf0
      dsimp only at hmatch
      cases Option.some.inj hf0
      exact hmatch.1
    | none =>
      rw [hfind] at hf0
      cases hf0

/-- C1 witness: the fixture cart (paid line, correct gift at quantity 3,
wrong-variant gift) under the enabled rule with threshold 20: exactly one
gift line survives, carrying variant v1 with quantity 1. -/
theorem applyGiftLogic_eligible_invariant_witness :
    ∃ g : CartLineNode,
      giftNodes (applyMutations "F" cartTwoGifts
          (applyGiftLogic (some ruleV1) (cartRespOf cartTwoGifts) rsOK).2) = [g] ∧
      g.merchandise.bind Merchandise.id = some ruleV1.giftVariantId ∧
      g.quantity = some 1 ∧
      (∀ g0, findCorrectGiftLine ruleV1.giftVariantId cartTwoGifts = some g0 →
        g.id = g0.id) :=
  applyGiftLogic_eligible_invariant ruleV1 (cartRespOf cartTwoGifts) rsOK
    ⟨some "cartA", cartTwoGifts⟩ "F" rfl rfl
    (show ¬ calculateSubtotalWithoutGifts cartTwoGifts < ruleV1.minCartSubtotal by
      rw [subtotal_cartTwoGifts]
      norm_num [ruleV1])
    (by decide) (by decide) (by decide) (by decide) (by decide)

/-- C2: for an enabled rule and a cart whose gift-free subtotal is below
the threshold, a successful run removes every gift line (none survives),
returns `applied:false`, sets `removed:=true` exactly when a gift line
existed beforehand, and issues the one removal call only in that case.
Platform well-formedness of line ids is assumed. -/
theorem applyGiftLogic_ineligible_removal (rule : GiftRule) (cartResp : CartQueryResp)
    (rs : Responses) (cart : CartData) (freshId : String)
    (hen : rule.enableRule = true)
    (hcart : getCartData cartResp = Except.ok cart)
    (hinelig : calculateSubtotalWithoutGifts cart.lines < rule.minCartSubtotal)
    (hwf : WfIds cart.lines)
    (hrem : gqlOkB rs.removeResp = true) :
    giftNodes (applyMutations freshId cart.lines
        (applyGiftLogic (some rule) cartResp rs).2) = [] ∧
    (applyGiftLogic (some rule) cartResp rs).1.applied = false ∧
    ((applyGiftLogic (some rule) cartResp rs).1.removed = some true ↔
      giftNodes cart.lines ≠ []) ∧
    (giftNodes cart.lines ≠ [] →
      applyGiftLogic (some rule) cartResp rs =
        (⟨false, some true, ineligibleRemovedReason
            (calculateSubtotalWithoutGifts cart.lines) rule.minCartSubtotal⟩,
          [CartMutation.remove (findGiftLineIds cart.lines)])) ∧
    (giftNodes cart.lines = [] →
      applyGiftLogic (some rule) cartResp rs =
        (⟨false, none, ineligibleReason (calculateSubtotalWithoutGifts cart.lines)
            rule.minCartSubtotal⟩, [])) := by
  rw [applyGiftLogic_branch rule cartResp rs cart hen hcart, if_pos hinelig]
  have hfin := ineligible_final rs (calculateSubtotalWithoutGifts cart.lines)
    rule.minCartSubtotal cart.lines freshId hwf hrem
  have hids_iff : findGiftLineIds cart.lines = [] ↔ giftNodes cart.lines = [] := by
    constructor
    · intro h
      exact (giftNodes_nil_iff _).mpr (giftEdges_nil_of_no_ids _ hwf h)
    · intro h
      rw [findGiftLineIds_eq, (giftNodes_nil_iff _).mp h]
      rfl
  refine ⟨(giftNodes_nil_iff _).mpr hfin.1, ?_⟩
  rcases ineligibleFlow_ok rs (calculateSubtotalWithoutGifts cart.lines)
      rule.minCartSubtotal cart.lines hrem with ⟨hg, heq⟩ | ⟨hg, heq⟩
  · rw [heq]
    refine ⟨rfl, ?_, ?_, ?_⟩
    · rw [show giftNodes cart.lines = [] from hids_iff.mp hg]
      simp
    · intro hne
      exact absurd (hids_iff.mp hg) hne
    · intro _
      rfl
  · rw [heq]
    have hne : giftNodes cart.lines ≠ [] := fun h => hg (hids_iff.mpr h)
    refine ⟨rfl, by simp [hne], ?_, ?_⟩
    · intro _
      rfl
    · intro h
      exact absurd h hne

/-- C2 witness: the two-gift fixture cart against threshold 100 (subtotal
30): no gift survives and `removed = true`. -/
theorem applyGiftLogic_ineligible_removal_witness :
    giftNodes (applyMutations "F" cartTwoGifts
        (applyGiftLogic (some ruleV1High) (cartRespOf cartTwoGifts) rsOK).2) = [] ∧
    (applyGiftLogic (some ruleV1High) (cartRespOf cartTwoGifts) rsOK).1.applied = false ∧
    (applyGiftLogic (some ruleV1High) (cartRespOf cartTwoGifts) rsOK).1.removed =
      some true := by
  have h := applyGiftLogic_ineligible_removal ruleV1High (cartRespOf cartTwoGifts) rsOK
    ⟨some "cartA", cartTwoGifts⟩ "F" rfl rfl
    (show calculateSubtotalWithoutGifts cartTwoGifts < ruleV1High.minCartSubtotal by
      rw [subtotal_cartTwoGifts]
      norm_num [ruleV1High])
    (by decide) (by decide)
  exact ⟨h.1, h.2.1, h.2.2.1.mpr (by decide)⟩

/-- C4: for an enabled rule and an eligible cart holding no gift line,
`applyGiftLogic` issues exactly one add-gift mutation — quantity 1,
merchandise `rule.giftVariantId`, attribute `_is_gift=true` — and on
success returns `applied:true` with reason `"Gift applied successfully"`. -/
theorem applyGiftLogic_addsGift (rule : GiftRule) (cartResp : CartQueryResp)
    (rs : Responses) (cart : CartData)
    (hen : rule.enableRule = true)
    (hcart : getCartData cartResp = Except.ok cart)
    (helig : ¬ calculateSubtotalWithoutGifts cart.lines < rule.minCartSubtotal)
    (hnogift : giftNodes cart.lines = [])
    (hadd : gqlOkB rs.addResp = true) :
    applyGiftLogic (some rule) cartResp rs =
      (⟨true, none, "Gift applied successfully"⟩,
        [CartMutation.add ⟨1, rule.giftVariantId, [("_is_gift", "true")]⟩]) := by
  rw [applyGiftLogic_branch rule cartResp rs cart hen hcart, if_neg helig]
  have hge : giftEdges (edgesOf cart.lines) = [] := (giftNodes_nil_iff _).mp hnogift
  have hids : findGiftLineIds cart.lines = [] := by
    rw [findGiftLineIds_eq, hge]
    rfl
  have hfind : findCorrectGiftLine rule.giftVariantId cart.lines = none := by
    unfold findCorrectGiftLine
    rw [find?_restrict_gift _ _ (fun e he => (correctGiftEdgeB_gift _ e he).1), hge]
    rfl
  have hrm : giftItemsToRemoveOf rule cart.lines = [] := by
    unfold giftItemsToRemoveOf
    rw [hids]
    rfl
  unfold eligibleFlow
  dsimp only
  rw [hrm]
  rw [if_neg (by simp)]
  dsimp only
  unfold afterRemoval
  rw [hfind, show correctGiftId none = none from rfl]
  dsimp only
  unfold addGiftItemM
  rw [(handle_ok_iff _ _).mpr hadd]
  rfl

/-- C4 witness: the gift-free fixture cart under the enabled rule with
threshold 20 gets exactly one add-gift call and a success result. -/
theorem applyGiftLogic_addsGift_witness :
    applyGiftLogic (some ruleV1) (cartRespOf cartNoGift) rsOK =
      (⟨true, none, "Gift applied successfully"⟩,
        [CartMutation.add ⟨1, ruleV1.giftVariantId, [("_is_gift", "true")]⟩]) :=
  applyGiftLogic_addsGift ruleV1 (cartRespOf cartNoGift) rsOK
    ⟨some "cartA", cartNoGift⟩ rfl rfl
    (show ¬ calculateSubtotalWithoutGifts cartNoGift < ruleV1.minCartSubtotal by
      rw [subtotal_cartNoGift]
      norm_num [ruleV1])
    (by decide) (by decide)

/-- No quantity-update call is ever part of the removal segment of the
eligible branch's trace. -/
theorem updateQty_not_mem_removeTrace (giftRules : GiftRule) (lines : Option CartLines)
    (lid : String) (q : Nat) :
    CartMutation.updateQty lid q ∉ removeTrace giftRules lines := by
  unfold removeTrace
  by_cases h0 : 0 < (giftItemsToRemoveOf giftRules lines).length
  · rw [if_pos h0]
    intro hmem
    simp at hmem
  · rw [if_neg h0]
    intro hmem
    cases hmem

/-- C10: for an eligible cart whose correct-variant gift line has quantity
at most 1 (including 0 or a missing quantity), `applyGiftLogic` issues no
quantity-update mutation and returns `applied:false` with reason
`"Gift already added to cart with correct quantity"`; a quantity-update
mutation (always to quantity 1) appears in the trace only when that line's
quantity exceeds 1. -/
theorem applyGiftLogic_quantity_branch (rule : GiftRule) (cartResp : CartQueryResp)
    (rs : Responses) (cart : CartData) (g0 : CartLineNode)
    (hen : rule.enableRule = true)
    (hcart : getCartData cartResp = Except.ok cart)
    (helig : ¬ calculateSubtotalWithoutGifts cart.lines < rule.minCartSubtotal)
    (hwf : WfIds cart.lines)
    (hrem : gqlOkB rs.removeResp = true) (hupd : gqlOkB rs.updateResp = true)
    (hadd : gqlOkB rs.addResp = true)
    (hfind : findCorrectGiftLine rule.giftVariantId cart.lines = some g0) :
    (g0.quantity.getD 0 ≤ 1 →
      (applyGiftLogic (some rule) cartResp rs).1 =
        ⟨false, none, "Gift already added to cart with correct quantity"⟩ ∧
      ∀ lid q, CartMutation.updateQty lid q ∉ (applyGiftLogic (some rule) cartResp rs).2) ∧
    (∀ lid q, CartMutation.updateQty lid q ∈ (applyGiftLogic (some rule) cartResp rs).2 →
      1 < g0.quantity.getD 0 ∧ q = 1) := by
  rw [applyGiftLogic_branch rule cartResp rs cart hen hcart, if_neg helig]
  rw [eligibleFlow_ok rs rule cart.lines hrem, afterRemoval_ok rs rule _ hupd hadd]
  rw [hfind]
  obtain ⟨e0, he0, _, hnode0, _, _⟩ :=
    findCorrectGiftLine_spec rule.giftVariantId cart.lines g0 hfind
  obtain ⟨gid, hgid, hgne⟩ := wf_edge_id cart.lines hwf e0 he0
  have hg0id : g0.id = some gid := by
    unfold edgeId at hgid
    rw [hnode0] at hgid
    exact hgid
  have hcg : correctGiftId (some g0) = some gid := by
    unfold correctGiftId
    dsimp only
    rw [hg0id]
    dsimp only
    rw [if_neg hgne]
  rw [hcg]
  dsimp only
  by_cases hq : 1 < ((some g0).bind CartLineNode.quantity).getD 0
  · rw [if_pos hq]
    dsimp only
    have hq' : 1 < g0.quantity.getD 0 := by simpa using hq
    constructor
    · intro hle
      exfalso
      omega
    · intro lid q hmem
      rcases List.mem_append.mp hmem with hmem | hmem
      · exact absurd hmem (updateQty_not_mem_removeTrace rule cart.lines lid q)
      · have heq := List.mem_singleton.mp hmem
        have hq1 : q = 1 := by
          cases heq
          rfl
        exact ⟨hq', hq1⟩
  · rw [if_neg hq]
    dsimp only
    rw [List.append_nil]
    constructor
    · intro _
      exact ⟨rfl, fun lid q hmem =>
        absurd hmem (updateQty_not_mem_removeTrace rule cart.lines lid q)⟩
    · intro lid q hmem
      exact absurd hmem (updateQty_not_mem_removeTrace rule cart.lines lid q)

/-- C10 witness: the fixture cart with the correct gift at quantity 1:
no quantity update is issued and the "already correct" result returns. -/
theorem applyGiftLogic_quantity_branch_witness :
    (applyGiftLogic (some ruleV1) (cartRespOf cartGiftQ1) rsOK).1 =
      ⟨false, none, "Gift already added to cart with correct quantity"⟩ := by
  have h := applyGiftLogic_quantity_branch ruleV1 (cartRespOf cartGiftQ1) rsOK
    ⟨some "cartA", cartGiftQ1⟩ lineGiftV1Q1 rfl rfl
    (show ¬ calculateSubtotalWithoutGifts cartGiftQ1 < ruleV1.minCartSubtotal by
      rw [subtotal_cartGiftQ1]
      norm_num [ruleV1])
    (by decide) (by decide) (by decide) (by decide) (by decide)
  exact (h.1 (by decide)).1

/-- Trace discipline of a run: every non-final issued mutation's response
was accepted, and if the final issued mutation's response was rejected the
run returned `applied:false` with that rejection's reason. -/
theorem run_trace_spec (rule : GiftRule) (cartResp : CartQueryResp) (rs : Responses)
    (hen : rule.enableRule = true) :
    (∀ m ∈ ((applyGiftLogic (some rule) cartResp rs).2).dropLast,
      handleGraphQLErrors (respFor rs m) (opName m) = Except.ok ()) ∧
    (∀ m, ((applyGiftLogic (some rule) cartResp rs).2).getLast? = some m →
      handleGraphQLErrors (respFor rs m) (opName m) = Except.ok () ∨
      ∃ s, handleGraphQLErrors (respFor rs m) (opName m) = Except.error s ∧
        (applyGiftLogic (some rule) cartResp rs).1 = ⟨false, none, s⟩) := by
  cases hgc : getCartData cartResp with
  | error r =>
    have hrun : applyGiftLogic (some rule) cartResp rs = (⟨false, none, r⟩, []) := by
      unfold applyGiftLogic
      dsimp only
      rw [hen, hgc]
      rfl
    rw [hrun]
    constructor
    · intro m hm
      cases hm
    · intro m hm
      cases hm
  | ok cart =>
    rw [applyGiftLogic_branch rule cartResp rs cart hen hgc]
    by_cases hel : calculateSubtotalWithoutGifts cart.lines < rule.minCartSubtotal
    · rw [if_pos hel]
      unfold ineligibleFlow
      by_cases h0 : 0 < (findGiftLineIds cart.lines).length
      · rw [if_pos h0]
        unfold removeGiftItemsM
        rw [if_neg (by omega)]
        cases hh : handleGraphQLErrors rs.removeResp "removing gift" with
        | error r =>
          refine ⟨fun m hm => (by cases hm), fun m hm => ?_⟩
          cases Option.some.inj hm
          exact Or.inr ⟨r, hh, rfl⟩
        | ok _ =>
          refine ⟨fun m hm => (by cases hm), fun m hm => ?_⟩
          cases Option.some.inj hm
          exact Or.inl hh
      · rw [if_neg h0]
        exact ⟨fun m hm => (by cases hm), fun m hm => (by cases hm)⟩
    · rw [if_neg hel]
      unfold eligibleFlow
      dsimp only
      by_cases h0 : 0 < (giftItemsToRemoveOf rule cart.lines).length
      · rw [if_pos h0]
        unfold removeGiftItemsM
        rw [if_neg (by omega)]
        cases hh : handleGraphQLErrors rs.removeResp "removing gift" with
        | error r =>
          refine ⟨fun m hm => (by cases hm), fun m hm => ?_⟩
          cases Option.some.inj hm
          exact Or.inr ⟨r, hh, rfl⟩
        | ok _ =>
          unfold afterRemoval
          cases hcg : correctGiftId (findCorrectGiftLine rule.giftVariantId cart.lines) with
          | some gid =>
            dsimp only
            by_cases hq : 1 <
                ((findCorrectGiftLine rule.giftVariantId cart.lines).bind
                  CartLineNode.quantity).getD 0
            · rw [if_pos hq]
              unfold updateGiftQuantityM
              cases hu : handleGraphQLErrors rs.updateResp "updating quantity" with
              | error r =>
                refine ⟨fun m hm => ?_, fun m hm => ?_⟩
                · rcases List.mem_singleton.mp (by simpa using hm) with rfl
                  exact hh
                · rw [List.getLast?_concat] at hm
                  cases Option.some.inj hm
                  exact Or.inr ⟨r, hu, rfl⟩
              | ok _ =>
                refine ⟨fun m hm => ?_, fun m hm => ?_⟩
                · rcases List.mem_singleton.mp (by simpa using hm) with rfl
                  exact hh
                · rw [List.getLast?_concat] at hm
                  cases Option.some.inj hm
                  exact Or.inl hu
            · rw [if_neg hq]
              refine ⟨fun m hm => ?_, fun m hm => ?_⟩
              · rw [List.append_nil] at hm
                cases hm
              · rw [List.append_nil] at hm
                cases Option.some.inj hm
                exact Or.inl hh
          | none =>
            dsimp only
            unfold addGiftItemM
            cases ha : handleGraphQLErrors rs.addResp "adding gift" with
            | error r =>
              refine ⟨fun m hm => ?_, fun m hm => ?_⟩
              · rcases List.mem_singleton.mp (by simpa using hm) with rfl
                exact hh
              · rw [List.getLast?_concat] at hm
                cases Option.some.inj hm
                exact Or.inr ⟨r, ha, rfl⟩
            | ok _ =>
              refine ⟨fun m hm => ?_, fun m hm => ?_⟩
              · rcases List.mem_singleton.mp (by simpa using hm) with rfl
                exact hh
              · rw [List.getLast?_concat] at hm
                cases Option.some.inj hm
                exact Or.inl ha
      · rw [if_neg h0]
        unfold afterRemoval
        cases hcg : correctGiftId (findCorrectGiftLine rule.giftVariantId cart.lines) with
        | some gid =>
          dsimp only
          by_cases hq : 1 <
              ((findCorrectGiftLine rule.giftVariantId cart.lines).bind
                CartLineNode.quantity).getD 0
          · rw [if_pos hq]
            unfold updateGiftQuantityM
            cases hu : handleGraphQLErrors rs.updateResp "updating quantity" with
            | error r =>
              refine ⟨fun m hm => (by cases hm), fun m hm => ?_⟩
              cases Option.some.inj hm
              exact Or.inr ⟨r, hu, rfl⟩
            | ok _ =>
              refine ⟨fun m hm => (by cases hm), fun m hm => ?_⟩
              cases Option.some.inj hm
              exact Or.inl hu
          · rw [if_neg hq]
            exact ⟨fun m hm => (by cases hm), fun m hm => (by cases hm)⟩
        | none =>
          dsimp only
          unfold addGiftItemM
          cases ha : handleGraphQLErrors rs.addResp "adding gift" with
          | error r =>
            refine ⟨fun m hm => (by cases hm), fun m hm => ?_⟩
            cases Option.some.inj hm
            exact Or.inr ⟨r, ha, rfl⟩
          | ok _ =>
            refine ⟨fun m hm => (by cases hm), fun m hm => ?_⟩
            cases Option.some.inj hm
            exact Or.inl ha

/-- `x || dflt` keeps a non-empty present string. -/
theorem jsStrOr_some_ne (e d : String) (hne : e ≠ "") : jsStrOr (some e) d = e := by
  unfold jsStrOr
  dsimp only
  rw [if_neg hne]

/-- A present, non-empty first message of a failing `userErrors` scan is
propagated verbatim. -/
theorem userErrorsCheck_verbatim (d : List (String × MutationPayload)) (op e : String)
    (hm : (match d.find? (fun kv => 0 < (kv.2.userErrors.getD []).length) with
      | some kv => (kv.2.userErrors.getD []).head?.bind UserError.message
      | none => none) = some e)
    (hne : e ≠ "") : userErrorsCheck d op = Except.error e := by
  unfold userErrorsCheck
  cases hf : d.find? (fun kv => 0 < (kv.2.userErrors.getD []).length) with
  | none =>
    rw [hf] at hm
    cases hm
  | some kv =>
    rw [hf] at hm
    dsimp only at hm
    dsimp only
    rw [hm, jsStrOr_some_ne e _ hne]

/-- C6 helper: the platform's first message of any failing response, when
present and non-empty, becomes the rejection reason verbatim. -/
theorem handle_verbatim (resp : GQLResp) (op e : String)
    (hm : firstPlatformMessage resp = some e) (hne : e ≠ "") :
    handleGraphQLErrors resp op = Except.error e := by
  unfold firstPlatformMessage at hm
  unfold handleGraphQLErrors
  cases her : resp.errors with
  | none =>
    rw [her] at hm
    dsimp only at hm
    dsimp only
    exact userErrorsCheck_verbatim _ op e hm hne
  | some es =>
    cases es with
    | nil =>
      rw [her] at hm
      dsimp only at hm
      dsimp only
      rw [if_neg (by simp)]
      exact userErrorsCheck_verbatim _ op e hm hne
    | cons e0 rest =>
      rw [her] at hm
      dsimp only at hm
      dsimp only
      rw [if_pos (by simp), List.head?_cons]
      simp only [Option.some_bind]
      rw [hm, jsStrOr_some_ne e _ hne]

/-- C6: remote failures short-circuit reconciliation.  A cart-query
response carrying a GraphQL error with a (non-empty) message makes the run
return `applied:false` with that message and issue no mutation; in every
run, each mutation before the last had an accepted response; when the last
issued mutation's response is rejected, the run returns `applied:false`
with the rejection reason (no compensating call follows it); and any
response whose first platform message is present and non-empty has that
message extracted verbatim as the rejection reason. -/
theorem applyGiftLogic_short_circuit (rule : GiftRule) (cartResp : CartQueryResp)
    (rs : Responses) (hen : rule.enableRule = true) :
    (∀ e rest, cartResp.errors = some (⟨some e⟩ :: rest) → e ≠ "" →
      applyGiftLogic (some rule) cartResp rs = (⟨false, none, e⟩, [])) ∧
    (∀ m, m ∈ ((applyGiftLogic (some rule) cartResp rs).2).dropLast →
      gqlOkB (respFor rs m) = true) ∧
    (∀ m s, ((applyGiftLogic (some rule) cartResp rs).2).getLast? = some m →
      handleGraphQLErrors (respFor rs m) (opName m) = Except.error s →
      (applyGiftLogic (some rule) cartResp rs).1 = ⟨false, none, s⟩) ∧
    (∀ resp op e, firstPlatformMessage resp = some e → e ≠ "" →
      handleGraphQLErrors resp op = Except.error e) := by
  obtain ⟨hpre, hlast⟩ := run_trace_spec rule cartResp rs hen
  refine ⟨?_, ?_, ?_, fun resp op e hm hne => handle_verbatim resp op e hm hne⟩
  · intro e rest herr hne
    have hgc : getCartData cartResp = Except.error e := by
      unfold getCartData
      rw [herr]
      dsimp only
      rw [if_pos (by simp), List.head?_cons]
      simp only [Option.some_bind]
      rw [jsStrOr_some_ne e _ hne]
    unfold applyGiftLogic
    dsimp only
    rw [hen, hgc]
    rfl
  · intro m hm
    exact (handle_ok_iff _ _).mp (hpre m hm)
  · intro m s hm hs
    rcases hlast m hm with hok | ⟨s', hs', hres⟩
    · rw [hok] at hs
      cases hs
    · rw [hs'] at hs
      cases Except.error.inj hs
      exact hres

/-- For an enabled rule, an eligible cart and no gift line, the run is the
single add call's outcome. -/
theorem run_no_gift_eq (rule : GiftRule) (cartResp : CartQueryResp) (rs : Responses)
    (cart : CartData) (hen : rule.enableRule = true)
    (hcart : getCartData cartResp = Except.ok cart)
    (helig : ¬ calculateSubtotalWithoutGifts cart.lines < rule.minCartSubtotal)
    (hnogift : giftNodes cart.lines = []) :
    applyGiftLogic (some rule) cartResp rs =
      (match handleGraphQLErrors rs.addResp "adding gift" with
       | Except.error r => (⟨false, none, r⟩,
           [CartMutation.add ⟨1, rule.giftVariantId, [("_is_gift", "true")]⟩])
       | Except.ok _ => (⟨true, none, "Gift applied successfully"⟩,
           [CartMutation.add ⟨1, rule.giftVariantId, [("_is_gift", "true")]⟩])) := by
  rw [applyGiftLogic_branch rule cartResp rs cart hen hcart, if_neg helig]
  have hge : giftEdges (edgesOf cart.lines) = [] := (giftNodes_nil_iff _).mp hnogift
  have hids : findGiftLineIds cart.lines = [] := by
    rw [findGiftLineIds_eq, hge]
    rfl
  have hfind : findCorrectGiftLine rule.giftVariantId cart.lines = none := by
    unfold findCorrectGiftLine
    rw [find?_restrict_gift _ _ (fun e he => (correctGiftEdgeB_gift _ e he).1), hge]
    rfl
  have hrm : giftItemsToRemoveOf rule cart.lines = [] := by
    unfold giftItemsToRemoveOf
    rw [hids]
    rfl
  unfold eligibleFlow
  dsimp only
  rw [hrm, if_neg (by simp)]
  dsimp only
  unfold afterRemoval
  rw [hfind, show correctGiftId none = none from rfl]
  dsimp only
  unfold addGiftItemM
  cases handleGraphQLErrors rs.addResp "adding gift" <;> rfl

/-- C6 witness: a failing `cartLinesAdd` response with user-error message
"boom" on the gift-free fixture cart: the run stops at the add call and
surfaces "boom" verbatim. -/
theorem applyGiftLogic_short_circuit_witness :
    (applyGiftLogic (some ruleV1) (cartRespOf cartNoGift) rsBadAdd).1 =
      ⟨false, none, "boom"⟩ := by
  have hrun : applyGiftLogic (some ruleV1) (cartRespOf cartNoGift) rsBadAdd =
      (⟨false, none, "boom"⟩,
        [CartMutation.add ⟨1, "v1", [("_is_gift", "true")]⟩]) := by
    rw [run_no_gift_eq ruleV1 (cartRespOf cartNoGift) rsBadAdd ⟨some "cartA", cartNoGift⟩
      rfl rfl
      (show ¬ calculateSubtotalWithoutGifts cartNoGift < ruleV1.minCartSubtotal by
        rw [subtotal_cartNoGift]
        norm_num [ruleV1])
      (by decide)]
    rfl
  exact (applyGiftLogic_short_circuit ruleV1 (cartRespOf cartNoGift) rsBadAdd rfl).2.2.1
    (CartMutation.add ⟨1, "v1", [("_is_gift", "true")]⟩) "boom"
    (by rw [hrun]; rfl) (by rfl)

/-- C7: the HTTP action's status mapping: 500 with the exception message
on a thrown error; with a valid shop and body and both APIs available, the
reconciliation result is returned with status 200 exactly when `applied`
or `removed` is true and 400 otherwise (rule disabled and ineligible carts
included); missing or empty `cartId` is a 400 validation failure; an
unavailable Storefront or Admin API is a 503. -/
theorem actionModel_status (shopDomain : Option String) (cartIdField : Option String)
    (storefrontOk adminOk : Bool) (giftRules : Option GiftRule)
    (cartResp : CartQueryResp) (rs : Responses) :
    (∀ m, actionModel (some m) shopDomain cartIdField storefrontOk adminOk giftRules
        cartResp rs = (500, ⟨false, none, m.getD "Internal server error"⟩)) ∧
    (∀ sd c, shopDomain = some sd → sd ≠ "" → cartIdField = some c → c ≠ "" →
      storefrontOk = true → adminOk = true →
      actionModel none shopDomain cartIdField storefrontOk adminOk giftRules cartResp rs =
        ((if (applyGiftLogic giftRules cartResp rs).1.applied ||
            ((applyGiftLogic giftRules cartResp rs).1.removed.getD false)
          then 200 else 400),
          (applyGiftLogic giftRules cartResp rs).1)) ∧
    (∀ sd, shopDomain = some sd → sd ≠ "" →
      (cartIdField = none ∨ cartIdField = some "") →
      (actionModel none shopDomain cartIdField storefrontOk adminOk giftRules
          cartResp rs).1 = 400 ∧
      (actionModel none shopDomain cartIdField storefrontOk adminOk giftRules
          cartResp rs).2.applied = false) ∧
    (∀ sd c, shopDomain = some sd → sd ≠ "" → cartIdField = some c → c ≠ "" →
      storefrontOk = false →
      actionModel none shopDomain cartIdField storefrontOk adminOk giftRules cartResp rs =
        (503, ⟨false, none, "Storefront API not available"⟩)) ∧
    (∀ sd c, shopDomain = some sd → sd ≠ "" → cartIdField = some c → c ≠ "" →
      storefrontOk = true → adminOk = false →
      actionModel none shopDomain cartIdField storefrontOk adminOk giftRules cartResp rs =
        (503, ⟨false, none, "Admin API not available"⟩)) := by
  refine ⟨fun m => rfl, ?_, ?_, ?_, ?_⟩
  · intro sd c hsd hne hc hcne hst had
    subst hsd hc hst had
    unfold actionModel
    dsimp only
    rw [if_neg hne, if_neg hcne]
    rfl
  · intro sd hsd hne hval
    subst hsd
    rcases hval with h | h
    · subst h
      unfold actionModel
      dsimp only
      rw [if_neg hne]
      exact ⟨rfl, rfl⟩
    · subst h
      unfold actionModel
      dsimp only
      rw [if_neg hne, if_pos rfl]
      exact ⟨rfl, rfl⟩
  · intro sd c hsd hne hc hcne hst
    subst hsd hc hst
    unfold actionModel
    dsimp only
    rw [if_neg hne, if_neg hcne]
    rfl
  · intro sd c hsd hne hc hcne hst had
    subst hsd hc hst had
    unfold actionModel
    dsimp only
    rw [if_neg hne, if_neg hcne]
    rfl

/-- C7 witness: a valid request on the gift-free eligible fixture cart
returns status 200 with the success result. -/
theorem actionModel_status_witness :
    actionModel none (some "shop1.example.com") (some "cart1") true true
      (some ruleV1) (cartRespOf cartNoGift) rsOK =
      (200, ⟨true, none, "Gift applied successfully"⟩) := by
  have h := (actionModel_status (some "shop1.example.com") (some "cart1") true true
    (some ruleV1) (cartRespOf cartNoGift) rsOK).2.1 "shop1.example.com" "cart1"
    rfl (by decide) rfl (by decide) rfl rfl
  rw [h]
  have hrun : applyGiftLogic (some ruleV1) (cartRespOf cartNoGift) rsOK =
      (⟨true, none, "Gift applied successfully"⟩,
        [CartMutation.add ⟨1, "v1", [("_is_gift", "true")]⟩]) := by
    rw [run_no_gift_eq ruleV1 (cartRespOf cartNoGift) rsOK ⟨some "cartA", cartNoGift⟩
      rfl rfl
      (show ¬ calculateSubtotalWithoutGifts cartNoGift < ruleV1.minCartSubtotal by
        rw [subtotal_cartNoGift]
        norm_num [ruleV1])
      (by decide)]
    rfl
  rw [hrun]
  rfl

/-- A cart holding exactly one gift edge — the correct variant, non-empty
id, quantity at most 1 — makes any further run a pure no-op: no response
is consulted, no mutation issued. -/
theorem second_run_already_correct (rule : GiftRule) (cartResp2 : CartQueryResp)
    (rs2 : Responses) (cart2 : CartData) (e : CartEdge) (g : CartLineNode) (gid : String)
    (hen : rule.enableRule = true)
    (hcart2 : getCartData cartResp2 = Except.ok cart2)
    (helig2 : ¬ calculateSubtotalWithoutGifts cart2.lines < rule.minCartSubtotal)
    (hE2 : giftEdges (edgesOf cart2.lines) = [e])
    (hnode : e.node = some g)
    (hmerch : g.merchandise.bind Merchandise.id = some rule.giftVariantId)
    (hgid : g.id = some gid) (hgne : gid ≠ "")
    (hqle : g.quantity.getD 0 ≤ 1) :
    applyGiftLogic (some rule) cartResp2 rs2 =
      (⟨false, none, "Gift already added to cart with correct quantity"⟩, []) := by
  rw [applyGiftLogic_branch rule cartResp2 rs2 cart2 hen hcart2, if_neg helig2]
  have hgift_e : isGiftItem e.node = true := by
    have hmem : e ∈ giftEdges (edgesOf cart2.lines) := by
      rw [hE2]
      exact List.mem_cons_self e []
    exact (List.mem_filter.mp hmem).2
  have hp : correctGiftEdgeB rule.giftVariantId e = true := by
    unfold correctGiftEdgeB
    rw [hnode]
    rw [hnode] at hgift_e
    simp [hgift_e, hmerch]
  have find2 : findCorrectGiftLine rule.giftVariantId cart2.lines = some g := by
    unfold findCorrectGiftLine
    rw [find?_restrict_gift _ _ (fun e' he' => (correctGiftEdgeB_gift _ e' he').1), hE2,
      List.find?_cons_of_pos _ hp]
    simp [Option.some_bind, hnode]
  have hedge : edgeId e = some gid := by
    unfold edgeId
    rw [hnode]
    simp [Option.some_bind, hgid]
  have ids2 : findGiftLineIds cart2.lines = [gid] := by
    rw [findGiftLineIds_eq, hE2]
    simp [List.filterMap_cons, nonEmptyIdOpt, hedge, hgne]
  have hb2 : (findCorrectGiftLine rule.giftVariantId cart2.lines).bind CartLineNode.id =
      some gid := by
    rw [find2]
    simp [Option.some_bind, hgid]
  have hrm2 : giftItemsToRemoveOf rule cart2.lines = [] := by
    unfold giftItemsToRemoveOf
    rw [ids2, hb2]
    simp
  unfold eligibleFlow
  dsimp only
  rw [hrm2, if_neg (by simp)]
  dsimp only
  unfold afterRemoval
  rw [find2]
  have hcg : correctGiftId (some g) = some gid := by
    unfold correctGiftId
    dsimp only
    rw [hgid]
    dsimp only
    rw [if_neg hgne]
  rw [hcg]
  dsimp only
  rw [if_neg (by simp only [Option.some_bind]; omega)]
  rfl

/-- C3: reconciliation is idempotent.  After a successful first run on a
well-formed cart, a second run on the resulting cart (any rule state, any
responses) issues no mutation and returns `applied:false`. -/
theorem applyGiftLogic_idempotent (giftRules : Option GiftRule)
    (cartResp cartResp2 : CartQueryResp) (rs rs2 : Responses)
    (cart cart2 : CartData) (freshId : String)
    (hcart : getCartData cartResp = Except.ok cart)
    (hwf : WfIds cart.lines)
    (hrem : gqlOkB rs.removeResp = true) (hupd : gqlOkB rs.updateResp = true)
    (hadd : gqlOkB rs.addResp = true)
    (hfresh : freshId ≠ "")
    (hcart2 : getCartData cartResp2 = Except.ok cart2)
    (hlines2 : cart2.lines =
      applyMutations freshId cart.lines (applyGiftLogic giftRules cartResp rs).2) :
    (applyGiftLogic giftRules cartResp2 rs2).2 = [] ∧
      (applyGiftLogic giftRules cartResp2 rs2).1.applied = false := by
  cases giftRules with
  | none => exact ⟨rfl, rfl⟩
  | some rule =>
    by_cases hen : rule.enableRule = true
    · rw [applyGiftLogic_branch rule cartResp rs cart hen hcart] at hlines2
      by_cases hel : calculateSubtotalWithoutGifts cart.lines < rule.minCartSubtotal
      · rw [if_pos hel] at hlines2
        have hfin := ineligible_final rs (calculateSubtotalWithoutGifts cart.lines)
          rule.minCartSubtotal cart.lines freshId hwf hrem
        have hsub2 : calculateSubtotalWithoutGifts cart2.lines =
            calculateSubtotalWithoutGifts cart.lines := by
          rw [hlines2]
          exact hfin.2
        have hE2 : giftEdges (edgesOf cart2.lines) = [] := by
          rw [hlines2]
          exact hfin.1
        have hids2 : findGiftLineIds cart2.lines = [] := by
          rw [findGiftLineIds_eq, hE2]
          rfl
        rw [applyGiftLogic_branch rule cartResp2 rs2 cart2 hen hcart2,
          if_pos (by rw [hsub2]; exact hel)]
        unfold ineligibleFlow
        rw [hids2]
        exact ⟨rfl, rfl⟩
      · rw [if_neg hel] at hlines2
        obtain ⟨e, g, hE2', hnode, hmerch, hqle, hmatch⟩ :=
          eligible_final_gift rs rule cart.lines freshId hwf hrem hupd hadd
        have hE2 : giftEdges (edgesOf cart2.lines) = [e] := by
          rw [hlines2]
          exact hE2'
        have hsub2 : calculateSubtotalWithoutGifts cart2.lines =
            calculateSubtotalWithoutGifts cart.lines := by
          rw [hlines2]
          exact eligible_final_subtotal rs rule cart.lines freshId hwf hrem hupd hadd
        obtain ⟨gid, hgid, hgne⟩ : ∃ i, g.id = some i ∧ i ≠ "" := by
          cases hfind : findCorrectGiftLine rule.giftVariantId cart.lines with
          | some g0 =>
            rw [hfind] at hmatch
            dsimp only at hmatch
            obtain ⟨e0, he0, _, hnode0, _, _⟩ :=
              findCorrectGiftLine_spec rule.giftVariantId cart.lines g0 hfind
            obtain ⟨gid, hgid0, hgne⟩ := wf_edge_id cart.lines hwf e0 he0
            have hg0id : g0.id = some gid := by
              unfold edgeId at hgid0
              rw [hnode0] at hgid0
              exact hgid0
            exact ⟨gid, by rw [hmatch.1, hg0id], hgne⟩
          | none =>
            rw [hfind] at hmatch
            dsimp only at hmatch
            exact ⟨freshId, hmatch.1, hfresh⟩
        rw [second_run_already_correct rule cartResp2 rs2 cart2 e g gid hen hcart2
          (by rw [hsub2]; exact hel) hE2 hnode hmerch hgid hgne hqle]
        exact ⟨rfl, rfl⟩
    · have hdis : applyGiftLogic (some rule) cartResp2 rs2 =
          (⟨false, none, "Gift rule is disabled"⟩, []) := by
        unfold applyGiftLogic
        dsimp only
        rw [Bool.eq_false_iff.mpr hen]
        rfl
      rw [hdis]
      exact ⟨rfl, rfl⟩

/-- C3 witness: after the first run fixes the two-gift fixture cart, a
second run — even with failing responses — issues no mutation and returns
`applied:false`. -/
theorem applyGiftLogic_idempotent_witness :
    (applyGiftLogic (some ruleV1)
        ⟨none, some ⟨some "cartA2", applyMutations "F" cartTwoGifts
          (applyGiftLogic (some ruleV1) (cartRespOf cartTwoGifts) rsOK).2⟩⟩ rsBadAdd).2 = [] ∧
    (applyGiftLogic (some ruleV1)
        ⟨none, some ⟨some "cartA2", applyMutations "F" cartTwoGifts
          (applyGiftLogic (some ruleV1) (cartRespOf cartTwoGifts) rsOK).2⟩⟩ rsBadAdd).1.applied =
      false :=
  applyGiftLogic_idempotent (some ruleV1) (cartRespOf cartTwoGifts)
    ⟨none, some ⟨some "cartA2", applyMutations "F" cartTwoGifts
      (applyGiftLogic (some ruleV1) (cartRespOf cartTwoGifts) rsOK).2⟩⟩ rsOK rsBadAdd
    ⟨some "cartA", cartTwoGifts⟩
    ⟨some "cartA2", applyMutations "F" cartTwoGifts
      (applyGiftLogic (some ruleV1) (cartRespOf cartTwoGifts) rsOK).2⟩ "F"
    rfl (by decide) (by decide) (by decide) (by decide) (by decide) rfl rfl
